import Mathlib

/-!
# Verification of the `unslop` agent-tools repository

Shallow embedding of the repository's Python sources:

* `src/agent_scaffolder/tools.py`  — the dynamic tool generator
  (`define_dynamic_tools` and its helpers `_slugify`, `_ensure_ident`,
  `_render_param_sig`, `_render_docstring`, `_default_body`,
  `_function_exists`, `_render_function_block`, `_render_header`,
  `_render_yaml_tool_block`);
* `src/architect_agent/tools.py`   — `create_architecture_diagram`,
  `recommend_technology_stack`;
* `src/hiring_manager/tools.py`    — `create_job_description`,
  `design_screening_process`;
* `src/program_manager_agent/tools.py` — `track_project_progress` and its
  helpers;
* `src/requirements_agent/tools.py` — `create_user_stories` and its helpers.

Modeling conventions:

* Python `str` is Lean `String`; character-level work goes through
  `String.data : List Char`.  Only ASCII text is modeled (`lower()`,
  `strip()`, `\s` are given their ASCII meaning).
* Generated module files are modeled as lists of newline-terminated lines
  (`List String`): the file's byte content is the concatenation of
  `line ++ "\n"` over the list.  Every file the generator writes ends in a
  newline, so this representation is exact for them.  The `re.MULTILINE`
  anchors `^` of `_function_exists` and of the overwrite-removal pattern
  correspond to the line starts of this list; `\s+`/`\s*`/`[^)]*` crossing a
  newline cannot occur on the texts at issue (every candidate
  definition line contains its closing parenthesis), so the
  line-local matchers below are exact on them.
* Values spliced into single source lines (parameter types, descriptions,
  `repr` of defaults, the agent name) are modeled as given; the
  line-based model is exact when they contain no newline, which the
  well-formedness predicates used by the relevant theorems require.
* Python exceptions are `Except String`; the in-band
  `{"status": "error", ...}` record of `define_dynamic_tools` is a separate
  constructor, distinct from raised exceptions.
* Python `int` is `Int`, `float` arithmetic that the claims touch is exact
  rational arithmetic (`ℚ`); fields that the source renders with
  `f"{...:.1f}"`-style formatting are kept as their unformatted numeric
  value, which the claims under study never format.
* Python dicts with fixed string keys become structures; dicts built as
  lookup tables become `String → Option _` functions mirroring `dict.get`;
  dicts with dynamic keys become association lists in insertion order.
-/

/-! ## Character classes (ASCII, Python semantics) -/

/-- Python `\s` (ASCII): space, tab, newline, carriage return, vertical
tab, form feed. -/
def pyIsSpace (c : Char) : Bool :=
  c = ' ' || c = '\t' || c = '\n' || c = '\r' || c = '\x0b' || c = '\x0c'

/-- The character class `[a-z0-9_]` of `_slugify`'s pattern. -/
def isSlugChar (c : Char) : Bool :=
  ('a' ≤ c && c ≤ 'z') || ('0' ≤ c && c ≤ '9') || c = '_'

/-- First-character class of `_VALID_IDENT = ^[A-Za-z_][A-Za-z0-9_]*$`. -/
def isIdentStart (c : Char) : Bool :=
  ('A' ≤ c && c ≤ 'Z') || ('a' ≤ c && c ≤ 'z') || c = '_'

/-- Continuation class `[A-Za-z0-9_]` of `_VALID_IDENT`. -/
def isIdentChar (c : Char) : Bool :=
  isIdentStart c || ('0' ≤ c && c ≤ '9')

/-- `_VALID_IDENT.match(s)`: `^[A-Za-z_][A-Za-z0-9_]*$`. -/
def isValidIdent (s : String) : Bool :=
  match s.data with
  | [] => false
  | c :: rest => isIdentStart c && rest.all isIdentChar

/-- ASCII `str.lower` on one character. -/
def pyLower (c : Char) : Char :=
  if 'A' ≤ c && c ≤ 'Z' then Char.ofNat (c.toNat + 32) else c

/-- Python `str.strip()` on a character list. -/
def pyStripList (l : List Char) : List Char :=
  ((l.dropWhile pyIsSpace).reverse.dropWhile pyIsSpace).reverse

/-- Python `str.strip()`. -/
def pyStrip (s : String) : String := String.mk (pyStripList s.data)

/-! ## `_slugify` and the module-slug computation -/

/-- `re.sub(r"[^a-z0-9_]+", "-", ·)`: each maximal run of non-`[a-z0-9_]`
characters becomes a single `'-'`.  The Boolean flag records whether the
scanner is inside such a run (so the hyphen has already been emitted). -/
def subRuns : List Char → Bool → List Char
  | [], _ => []
  | c :: rest, inRun =>
    if isSlugChar c then c :: subRuns rest false
    else if inRun then subRuns rest true
    else '-' :: subRuns rest true

/-- Leading part of `str.strip("-")`. -/
def dropLeadHyphens (l : List Char) : List Char := l.dropWhile (· = '-')

/-- Trailing part of `str.strip("-")`. -/
def stripTrailHyphens : List Char → List Char
  | [] => []
  | c :: rest =>
    let r := stripTrailHyphens rest
    if r = [] && c = '-' then [] else c :: r

/-- Python `str.replace("--", "-")`: left-to-right, non-overlapping. -/
def replaceDoubleHyphen : List Char → List Char
  | [] => []
  | [c] => [c]
  | c :: d :: rest =>
    if c = '-' && d = '-' then '-' :: replaceDoubleHyphen rest
    else c :: replaceDoubleHyphen (d :: rest)

/-- `_slugify(name)` =
`re.sub(r"[^a-z0-9_]+", "-", name.strip().lower()).strip("-").replace("--", "-")`
on the character list. -/
def slugifyList (l : List Char) : List Char :=
  replaceDoubleHyphen (stripTrailHyphens (dropLeadHyphens
    (subRuns ((pyStripList l).map pyLower) false)))

/-- `_slugify`. -/
def slugify (s : String) : String := String.mk (slugifyList s.data)

/-- Python `str.replace("-", "_")` (single-character replacement). -/
def hyphenToUnderscore (l : List Char) : List Char :=
  l.map (fun c => if c = '-' then '_' else c)

/-- `slug = _slugify(agent_name).replace("-", "_")` (tools.py line 178). -/
def slugOf (s : String) : String :=
  String.mk (hyphenToUnderscore (slugifyList s.data))

/-- The transformation in the spec's words (§4.2): "lower-casing, replacing
runs of non `[a-z0-9_]` characters with a single hyphen, trimming edge
hyphens, then substituting underscores for hyphens".  A second definition,
written from the spec, to be compared with `slugOf`, which is written from
the code. -/
def specSlugOf (s : String) : String :=
  String.mk (hyphenToUnderscore (stripTrailHyphens (dropLeadHyphens
    (subRuns (s.data.map pyLower) false))))

/-- `_ensure_ident(s, kind)`: returns `s`, or raises `ValueError`. -/
def ensureIdentE (s kind : String) : Except String String :=
  if isValidIdent s then Except.ok s
  else Except.error ("Invalid " ++ kind ++ " identifier: \x27" ++ s ++ "\x27")

/-- Lines 178–179 of tools.py: compute the slug and run the (discarded)
identifier check on `slug if slug[0].isalpha() else "_" + slug`; `slug[0]`
raises `IndexError` on an empty slug.  The value used afterwards is `slug`
itself, not the checked candidate. -/
def slugStep (agent_name : String) : Except String String :=
  let slug := slugOf agent_name
  match slug.data with
  | [] => Except.error "IndexError: string index out of range"
  | c :: _ =>
    match ensureIdentE (if c.isAlpha then slug else "_" ++ slug) "module" with
    | Except.ok _ => Except.ok slug
    | Except.error e => Except.error e

/-! ## Generator data model (`ToolSpec`, tools.py docstring lines 148–161) -/

/-- A Python literal usable as a parameter default; rendered with `repr`.
(`repr` escaping is modeled for quote- and backslash-free strings.) -/
inductive PyVal where
  | none
  | bool (b : Bool)
  | int (n : Int)
  | str (s : String)
deriving DecidableEq, Repr

/-- Python `repr` on a `PyVal`. -/
def pyRepr : PyVal → String
  | PyVal.none => "None"
  | PyVal.bool b => if b then "True" else "False"
  | PyVal.int n => toString n
  | PyVal.str s => "\x27" ++ s ++ "\x27"

/-- One entry of a spec's `params` list: `{name, type, description, default?}`.
The `type` key is `ptype`, `description` is `pdescription`. -/
structure ParamSpec where
  name : String
  ptype : Option String
  pdescription : Option String
  default : Option PyVal
deriving DecidableEq, Repr

/-- The `returns` dict: `{type, description}`, either key may be absent. -/
structure ReturnsSpec where
  rtype : Option String
  rdescription : Option String
deriving DecidableEq, Repr

/-- One tool spec handed to `define_dynamic_tools`. -/
structure ToolSpec where
  function_name : String
  description : Option String
  params : List ParamSpec
  returns : Option ReturnsSpec
  body : Option String
deriving DecidableEq, Repr

/-- ASCII `str.lower()`. -/
def pyLowerStr (s : String) : String := String.mk (s.data.map pyLower)

/-! ## Rendering (`_render_param_sig`, `_render_docstring`, `_default_body`,
`_render_function_block`, `_render_header`) -/

/-- One rendered parameter: `f"{nm}: {typ} = {default_repr}"` or
`f"{nm}: {typ}"`. -/
def renderOneParam (p : ParamSpec) : String :=
  match p.default with
  | some v => p.name ++ ": " ++ p.ptype.getD "Any" ++ " = " ++ pyRepr v
  | Option.none => p.name ++ ": " ++ p.ptype.getD "Any"

/-- The parameter loop of `_render_param_sig`; `_ensure_ident` raises
`ValueError` on the first invalid parameter name. -/
def renderParamList : List ParamSpec → Except String (List String)
  | [] => Except.ok []
  | p :: ps =>
    if isValidIdent p.name then
      match renderParamList ps with
      | Except.ok rest => Except.ok (renderOneParam p :: rest)
      | Except.error e => Except.error e
    else Except.error ("Invalid parameter identifier: \x27" ++ p.name ++ "\x27")

/-- The two fixed trailing parameters appended by `_render_param_sig`. -/
def fixedTrailingParams : List String :=
  ["tool_context=None", "tool_config: Optional[Dict[str, Any]] = None"]

/-- Python `sep.join(pieces)`. -/
def pyJoin (sep : String) : List String → String
  | [] => ""
  | [x] => x
  | x :: y :: rest => x ++ sep ++ pyJoin sep (y :: rest)

/-- `_render_param_sig(params)`: `", ".join(rendered + fixed trailing)`. -/
def renderParamSig (params : List ParamSpec) : Except String String :=
  match renderParamList params with
  | Except.ok l => Except.ok (pyJoin ", " (l ++ fixedTrailingParams))
  | Except.error e => Except.error e

/-- Truthiness of the resolved `returns` dict
(`spec.get("returns", {"type": "Any", "description": ""})`):
the default dict is non-empty; a caller-supplied dict is truthy iff it has
at least one of its two possible keys. -/
def returnsTruthy (r : Option ReturnsSpec) : Bool :=
  match r with
  | Option.none => true
  | some ri => ri.rtype.isSome || ri.rdescription.isSome

/-- The item list of `_render_docstring` (each item is one line once the
spliced field values are newline-free). -/
def docstringItems (desc : String) (params : List ParamSpec)
    (returns : Option ReturnsSpec) : List String :=
  ["\"\"\"", pyStrip desc]
  ++ (if params.isEmpty then [] else
      ["", "Args:"] ++ params.map (fun p =>
        "  " ++ p.name ++ " (" ++ p.ptype.getD "Any" ++ "): " ++ p.pdescription.getD ""))
  ++ (if returnsTruthy returns then
        match returns with
        | Option.none => ["", "Returns:", "  Any: "]
        | some ri =>
          ["", "Returns:", "  " ++ ri.rtype.getD "Any" ++ ": " ++ ri.rdescription.getD ""]
      else [])
  ++ ["\"\"\""]

/-- The docstring block as file lines: the f-string `f"    {doc}"` plus the
`"\n    ".join` of `_render_docstring` indent every item by four spaces. -/
def docLines (desc : String) (params : List ParamSpec)
    (returns : Option ReturnsSpec) : List String :=
  (docstringItems desc params returns).map (fun l => "    " ++ l)

/-- `_default_body(return_type)` as file lines (its returned string ends in
a newline; the surrounding `"\n".join` plus `"\n\n"` tail is accounted for
in `bodyTailLines`). -/
def defaultBodyLines (return_type : Option String) : List String :=
  match return_type with
  | some rt =>
    if pyLowerStr rt = "dict" || pyLowerStr rt = "mapping" then
      ["    result = \x7b\"status\": \"ok\", \"note\": \"Replace with real logic\"\x7d",
       "    return result"]
    else ["    return \"OK (replace with real logic)\""]
  | Option.none => ["    return \"OK (replace with real logic)\""]

/-- Python `str.splitlines()` for `\n`-separated text (the generator only
ever joins with `"\n"`). -/
def pySplitlinesOnNL (s : String) : List String :=
  if s.data = [] then []
  else
    let parts := s.splitOn "\n"
    if s.data.getLast? = some '\n' then parts.dropLast else parts

/-- `("    " + line) if line.strip() else line`. -/
def indentBodyLine (line : String) : String :=
  if pyStrip line = "" then line else "    " ++ line

/-- The argument `_render_function_block` passes to `_default_body`:
`returns.get("type")` on the resolved dict (no `"Any"` fallback here). -/
def defaultBodyArg (spec : ToolSpec) : Option String :=
  match spec.returns with
  | Option.none => some "Any"
  | some ri => ri.rtype

/-- The body portion of a rendered block as file lines, including the blank
lines produced by the final `"\n".join(block) + "\n\n"`:  a custom body that
already ends in a newline contributes one trailing blank line, every other
case two.  Python `if body:` treats an empty string like an absent one. -/
def bodyTailLines (spec : ToolSpec) : List String :=
  match spec.body with
  | some b =>
    if b = "" then defaultBodyLines (defaultBodyArg spec) ++ ["", ""]
    else
      (pySplitlinesOnNL b).map indentBodyLine
        ++ (if b.endsWith "\n" then [""] else ["", ""])
  | Option.none => defaultBodyLines (defaultBodyArg spec) ++ ["", ""]

/-- `f"async def {fname}({sig}) -> {returns.get('type','Any')}:"`. -/
def blockHeaderLine (fname sig rt : String) : String :=
  "async def " ++ fname ++ "(" ++ sig ++ ") -> " ++ rt ++ ":"

/-- `returns.get("type", "Any")` on the resolved `returns` dict. -/
def rtypeOf (spec : ToolSpec) : String :=
  match spec.returns with
  | Option.none => "Any"
  | some ri => ri.rtype.getD "Any"

/-- `f"    log.info(\"[{fname}] called\")"`. -/
def logLineOf (fname : String) : String :=
  "    log.info(\"[" ++ fname ++ "] called\")"

/-- `_render_function_block(spec)` as file lines. -/
def renderFunctionBlockLines (spec : ToolSpec) : Except String (List String) :=
  if isValidIdent spec.function_name then
    match renderParamSig spec.params with
    | Except.error e => Except.error e
    | Except.ok sig =>
      Except.ok (
        blockHeaderLine spec.function_name sig (rtypeOf spec)
        :: docLines (spec.description.getD "No description provided.")
             spec.params spec.returns
        ++ [logLineOf spec.function_name]
        ++ bodyTailLines spec)
  else Except.error ("Invalid function identifier: \x27" ++ spec.function_name ++ "\x27")

/-- `_render_header(module_title)` as file lines. -/
def renderHeaderLines (module_title : String) : List String :=
  ["# Auto-generated tool stubs for " ++ module_title,
   "from __future__ import annotations",
   "from typing import Any, Dict, List, Optional",
   "from solace_ai_connector.common.log import log",
   ""]

/-! ## Text-pattern matching (`_function_exists` and the overwrite regex) -/

/-- Consume a literal character sequence. -/
def dropLit : List Char → List Char → Option (List Char)
  | [], s => some s
  | _ :: _, [] => Option.none
  | p :: ps, c :: cs => if c = p then dropLit ps cs else Option.none

/-- Consume `\s+` (maximal munch; exact here because every following
pattern atom is a non-space character). -/
def dropSpaces1 : List Char → Option (List Char)
  | [] => Option.none
  | c :: cs => if pyIsSpace c then some (cs.dropWhile pyIsSpace) else Option.none

/-- Consume `async\s+def\s+`, the shared lead of the two patterns and of
the removal pattern's lookahead `(?=^async\s+def|\Z)`. -/
def matchAsyncDefLead (s : List Char) : Option (List Char) :=
  match dropLit "async".data s with
  | Option.none => Option.none
  | some r1 =>
    match dropSpaces1 r1 with
    | Option.none => Option.none
    | some r2 =>
      match dropLit "def".data r2 with
      | Option.none => Option.none
      | some r3 => dropSpaces1 r3

/-- Whether a line satisfies the lookahead `^async\s+def`. -/
def isAsyncDefLine (line : String) : Bool := (matchAsyncDefLead line.data).isSome

/-- The `_function_exists` pattern `^async\s+def\s+{fname}\s*\(` on one
line. -/
def lineDefMatch (fname : String) (line : String) : Bool :=
  (((matchAsyncDefLead line.data).bind (dropLit fname.data)).map
    (fun r2 => (r2.dropWhile pyIsSpace).head? == some '(')).getD false

/-- `_function_exists(file_text, fname)`: the `re.MULTILINE` search
anchored at line starts. -/
def functionExists (lines : List String) (fname : String) : Bool :=
  lines.any (lineDefMatch fname)

/-- Start of the overwrite-removal pattern
`^async\s+def\s+{fname}\s*\([^\)]*\)\s*->` on one line ( `[^)]*` stops at
the first `)`; no backtracking alternative exists because `[^)]` and `)`
are disjoint). -/
def lineRemoveStartMatch (fname : String) (line : String) : Bool :=
  (((matchAsyncDefLead line.data).bind (dropLit fname.data)).map
    (fun r2 =>
      match r2.dropWhile pyIsSpace with
      | '(' :: r3 =>
        match r3.dropWhile (fun c => c ≠ ')') with
        | ')' :: r4 => (dropLit "->".data (r4.dropWhile pyIsSpace)).isSome
        | _ => false
      | _ => false)).getD false

/-- One left-to-right pass of the `re.sub(...)` scan of lines 211–216:
`dropping` is true while inside a match, i.e. in the `[\s\S]*?` consumed up
to the lookahead `(?=^async\s+def|\Z)`.  A line starting `^async\s+def`
ends the running match and is itself tested as a fresh match start. -/
def removeFBGo (fname : String) : List String → Bool → List String
  | [], _ => []
  | l :: rest, dropping =>
    if dropping && !(isAsyncDefLine l) then removeFBGo fname rest true
    else if lineRemoveStartMatch fname l then removeFBGo fname rest true
    else l :: removeFBGo fname rest false

/-- The `re.sub(...)` of lines 211–216: each match runs from a line
matching `lineRemoveStartMatch` through `[\s\S]*?\n` up to (exclusive) the
next line satisfying the lookahead `^async\s+def`, or to end of text
(`\Z`); the scan continues at the match end. -/
def removeFunctionBlock (fname : String) (ls : List String) : List String :=
  removeFBGo fname ls false

/-! ## `define_dynamic_tools` -/

/-- The file-system state the generator touches: the per-agent directory,
its `__init__.py`, and its `tools.py` (as file lines). -/
structure FSState where
  dir_exists : Bool
  init_file : Option String
  tools_file : Option (List String)
deriving DecidableEq, Repr

/-- A fresh target location: nothing exists yet. -/
def FSState.fresh : FSState := ⟨false, Option.none, Option.none⟩

/-- The in-band result record of `define_dynamic_tools` (the
`artifact_ids` list is always empty here: the optional artifact collaborator
is out of scope, its failures are swallowed by the source). -/
inductive DResult where
  | err (error : String)
  | ok (module_path py_file : String) (created skipped : List String)
      (yaml_tools_block : String)
deriving DecidableEq, Repr

/-- The per-spec loop (tools.py lines 196–219), threading the in-memory
text and the `created`/`skipped` lists; a `ValueError` from an invalid
parameter name inside `_render_function_block` aborts the whole call. -/
def processSpecs (overwrite : Bool) :
    List ToolSpec → List String → List String → List String →
    Except String (List String × List String × List String)
  | [], text, created, skipped => Except.ok (text, created, skipped)
  | spec :: rest, text, created, skipped =>
    if isValidIdent spec.function_name then
      let fname := spec.function_name
      let ex := functionExists text fname
      if ex && !overwrite then
        processSpecs overwrite rest text created (skipped ++ [fname])
      else
        let text1 := if ex && overwrite then removeFunctionBlock fname text else text
        match renderFunctionBlockLines spec with
        | Except.error e => Except.error e
        | Except.ok bl =>
          processSpecs overwrite rest (text1 ++ bl) (created ++ [fname]) skipped
    else
      processSpecs overwrite rest text created
        (skipped ++ [spec.function_name ++ " (invalid: Invalid function identifier: \x27"
          ++ spec.function_name ++ "\x27)"])

/-- `_render_yaml_tool_block(module_path, fn_name, description)`. -/
def renderYamlToolBlock (module_path fn_name description : String) : String :=
  let desc := if description = "" then fn_name ++ " tool." else description
  "- tool_type: python\n"
    ++ "  component_module: \"" ++ module_path ++ "\"\n"
    ++ "  component_base_path: .\n"
    ++ "  function_name: \"" ++ fn_name ++ "\"\n"
    ++ "  tool_description: \"" ++ desc ++ "\"\n"

/-- The registration-snippet loop (tools.py lines 240–246): one stanza per
input spec whose name passes the identifier check. -/
def yamlToolsBlock (module_path : String) (tools : List ToolSpec) : String :=
  String.intercalate "\n"
    ((tools.filter (fun s => isValidIdent s.function_name)).map
      (fun s => renderYamlToolBlock module_path s.function_name (s.description.getD "")))

/-- `define_dynamic_tools(agent_name, tools, overwrite, ...)`.  `base`
stands for `_resolve_base(tool_context)` (an external path).  Returns the
file-system state after the call plus either a raised exception
(`Except.error`) or the returned record. -/
def defineDynamicTools (agent_name : String) (tools : List ToolSpec)
    (overwrite : Bool) (base : String) (fs : FSState) :
    FSState × Except String DResult :=
  if agent_name = "" then (fs, Except.ok (DResult.err "agent_name is required"))
  else if tools.isEmpty then
    (fs, Except.ok (DResult.err "tools must be a non-empty list"))
  else
    match slugStep agent_name with
    | Except.error e => (fs, Except.error e)
    | Except.ok slug =>
      let fs1 : FSState :=
        { dir_exists := true
          init_file := some (fs.init_file.getD "")
          tools_file := fs.tools_file }
      let text0 := fs.tools_file.getD (renderHeaderLines agent_name)
      match processSpecs overwrite tools text0 [] [] with
      | Except.error e => (fs1, Except.error e)
      | Except.ok (text1, created, skipped) =>
        let module_path := "src." ++ slug ++ ".tools"
        let py_file := base ++ "/src/" ++ slug ++ "/tools.py"
        ({ fs1 with tools_file := some text1 },
         Except.ok (DResult.ok module_path py_file created skipped
           (yamlToolsBlock module_path tools)))

/-! ## Architect agent (`src/architect_agent/tools.py`) -/

/-- The `architecture_patterns` table of `create_architecture_diagram`. -/
def architecture_patterns (k : String) : Option (List String) :=
  if k = "web_application" then some ["MVC", "Layered Architecture", "Clean Architecture"]
  else if k = "microservices" then some ["Service Mesh", "Event-Driven", "Domain-Driven Design"]
  else if k = "data_pipeline" then
    some ["Lambda Architecture", "Kappa Architecture", "Batch Processing"]
  else if k = "mobile_app" then some ["MVVM", "Clean Architecture", "Repository Pattern"]
  else Option.none

/-- One entry of the `scale_recommendations` table. -/
structure ScaleRec where
  infrastructure : String
  database : String
  caching : String
deriving DecidableEq, Repr

/-- `scale_recommendations["medium"]`, also the fallback of the `.get`. -/
def mediumScaleRec : ScaleRec :=
  ⟨"Load-balanced multi-server setup", "Primary-replica database setup",
   "Distributed caching layer"⟩

/-- The `scale_recommendations` table. -/
def scale_recommendations (k : String) : Option ScaleRec :=
  if k = "small" then
    some ⟨"Single server or container", "Single database instance", "In-memory caching"⟩
  else if k = "medium" then some mediumScaleRec
  else if k = "large" then
    some ⟨"Auto-scaling cloud infrastructure", "Sharded or distributed database",
          "Multi-tier caching strategy"⟩
  else if k = "enterprise" then
    some ⟨"Multi-region cloud deployment", "Globally distributed database",
          "Edge caching with CDN"⟩
  else Option.none

/-- Result record of `create_architecture_diagram`. -/
structure ArchResult where
  status : String
  architecture_type : String
  scale : String
  recommended_patterns : List String
  infrastructure_recommendations : ScaleRec
  components : List String
  diagram_suggestion : String
  next_steps : List String
deriving DecidableEq, Repr

/-- `create_architecture_diagram(requirements, system_type, scale,
tool_context, tool_config)`.  The function body uses neither a clock nor
randomness nor either of the two trailing parameters, so the model takes
them at arbitrary types and ignores them, exactly as the source does. -/
def createArchitectureDiagram (requirements system_type scale : String)
    {γ δ : Type} (tool_context : γ) (tool_config : Option δ) : ArchResult :=
  { status := "success"
    architecture_type := system_type
    scale := scale
    recommended_patterns := (architecture_patterns system_type).getD ["Layered Architecture"]
    infrastructure_recommendations := (scale_recommendations scale).getD mediumScaleRec
    components := ["Presentation Layer", "Business Logic Layer", "Data Access Layer",
                   "Database Layer"]
    diagram_suggestion :=
      "Mermaid diagram for " ++ system_type ++ " architecture at " ++ scale ++ " scale"
    next_steps := ["Define detailed component specifications", "Create API contracts",
                   "Design data models", "Plan deployment strategy"] }

/-- `tech_stacks["web_application"]`, also the fallback of the `.get`.
Stacks have heterogeneous keys, so each is an association list in source
order. -/
def webApplicationStack : List (String × List String) :=
  [("frontend", ["React", "Vue.js", "Angular"]),
   ("backend", ["Node.js", "Python/Django", "Java/Spring"]),
   ("database", ["PostgreSQL", "MySQL", "MongoDB"]),
   ("deployment", ["Docker", "AWS/Azure", "Vercel"])]

/-- The `tech_stacks` table of `recommend_technology_stack`. -/
def tech_stacks (k : String) : Option (List (String × List String)) :=
  if k = "web_application" then some webApplicationStack
  else if k = "api_service" then
    some [("frameworks", ["FastAPI", "Express.js", "Spring Boot"]),
          ("database", ["PostgreSQL", "Redis", "DynamoDB"]),
          ("deployment", ["Kubernetes", "AWS Lambda", "Docker Compose"])]
  else if k = "data_pipeline" then
    some [("processing", ["Apache Spark", "Pandas", "Dask"]),
          ("storage", ["Data Lakes", "Warehouse", "Time Series DB"]),
          ("orchestration", ["Airflow", "Prefect", "Dagster"])]
  else if k = "mobile_app" then
    some [("cross_platform", ["React Native", "Flutter", "Xamarin"]),
          ("native", ["Swift/iOS", "Kotlin/Android"]),
          ("backend", ["Firebase", "Supabase", "Custom API"])]
  else Option.none

/-- The inline budget dict whose `.get(budget_constraints)` has *no*
default: an unrecognized budget yields Python `None`. -/
def budgetConsiderationsTable (k : String) : Option String :=
  if k = "low" then some "Focus on open-source solutions and managed services"
  else if k = "medium" then some "Balance of managed services and custom solutions"
  else if k = "high" then some "Enterprise-grade tools and custom development"
  else Option.none

/-- Result record of `recommend_technology_stack`; `budget_considerations`
is `Option` because the source's lookup can produce `None`. -/
structure TechStackResult where
  status : String
  project_type : String
  recommended_stack : List (String × List String)
  team_alignment : String
  budget_considerations : Option String
  implementation_phases : List String
deriving DecidableEq, Repr

/-- `recommend_technology_stack(project_type, team_expertise,
budget_constraints, ...)`. -/
def recommendTechnologyStack (project_type : String)
    (team_expertise : Option (List String)) (budget_constraints : String)
    {γ δ : Type} (tool_context : γ) (tool_config : Option δ) : TechStackResult :=
  let expertise := team_expertise.getD []
  { status := "success"
    project_type := project_type
    recommended_stack := (tech_stacks project_type).getD webApplicationStack
    team_alignment :=
      "Matches " ++ toString expertise.length ++ " of existing expertise areas"
    budget_considerations := budgetConsiderationsTable budget_constraints
    implementation_phases := ["MVP with core functionality",
      "Enhanced features and optimization", "Scaling and advanced features",
      "Enterprise features and compliance"] }

/-! ## Hiring manager (`src/hiring_manager/tools.py`) -/

/-- One entry of the `experience_requirements` table. -/
structure ExpRec where
  years : String
  responsibilities : String
  autonomy : String
deriving DecidableEq, Repr

/-- `experience_requirements["mid-level"]`, also the fallback of the `.get`. -/
def midLevelExpRec : ExpRec :=
  ⟨"3-5 years", "Independent project ownership", "Self-directed with periodic guidance"⟩

/-- The `experience_requirements` table of `create_job_description`. -/
def experience_requirements (k : String) : Option ExpRec :=
  if k = "entry" then
    some ⟨"0-2 years", "Learning-focused with mentorship", "Guided work with regular check-ins"⟩
  else if k = "mid-level" then some midLevelExpRec
  else if k = "senior" then
    some ⟨"5-8 years", "Technical leadership and mentoring", "High autonomy with strategic input"⟩
  else if k = "lead" then
    some ⟨"8+ years", "Team leadership and architectural decisions",
          "Full autonomy with stakeholder management"⟩
  else Option.none

/-- The `requirements` sub-dict of the job description. -/
structure JobRequirements where
  experience : String
  required_skills : List String
  nice_to_have : List String
  soft_skills : List String
deriving DecidableEq, Repr

/-- The `work_environment` sub-dict. -/
structure WorkEnvironment where
  autonomy_level : String
  team_structure : String
  growth_opportunities : String
deriving DecidableEq, Repr

/-- The `job_description` sub-dict. -/
structure JobDescriptionBody where
  summary : String
  responsibilities : List String
  requirements : JobRequirements
  work_environment : WorkEnvironment
deriving DecidableEq, Repr

/-- The `compensation_guidance` sub-dict. -/
structure CompensationGuidance where
  salary_range : String
  benefits : List String
  equity : String
deriving DecidableEq, Repr

/-- Result record of `create_job_description`. -/
structure JDResult where
  status : String
  job_title : String
  department : String
  experience_level : String
  job_description : JobDescriptionBody
  compensation_guidance : CompensationGuidance
deriving DecidableEq, Repr

/-- `create_job_description(role_title, department, experience_level,
required_skills, nice_to_have_skills, ...)`. -/
def createJobDescription (role_title department experience_level : String)
    (required_skills nice_to_have_skills : Option (List String))
    {γ δ : Type} (tool_context : γ) (tool_config : Option δ) : JDResult :=
  let required_skills := required_skills.getD []
  let nice_to_have_skills := nice_to_have_skills.getD []
  let exp_config := (experience_requirements experience_level).getD midLevelExpRec
  { status := "success"
    job_title := role_title
    department := department
    experience_level := experience_level
    job_description :=
      { summary := "We are seeking a talented " ++ role_title ++ " to join our "
          ++ department ++ " team."
        responsibilities :=
          ["Develop and maintain high-quality solutions for the " ++ department ++ " team",
           "Collaborate with cross-functional teams to deliver projects",
           "Participate in code reviews and technical discussions",
           "Contribute to team knowledge sharing and best practices"]
        requirements :=
          { experience := exp_config.years
            required_skills := required_skills
            nice_to_have := nice_to_have_skills
            soft_skills := ["Strong communication skills", "Problem-solving mindset",
                            "Team collaboration", "Continuous learning attitude"] }
        work_environment :=
          { autonomy_level := exp_config.autonomy
            team_structure := exp_config.responsibilities
            growth_opportunities := "Mentoring, training, conference attendance" } }
    compensation_guidance :=
      { salary_range := "Competitive based on experience"
        benefits := ["Health insurance", "401k", "PTO", "Professional development"]
        equity := "Stock options available" } }

/-- One entry of the `assessment_templates` table. -/
structure AssessmentTemplate where
  technical_skills : List String
  soft_skills : List String
  assessments : List String
deriving DecidableEq, Repr

/-- `assessment_templates["engineering"]`, also the fallback of the `.get`. -/
def engineeringTemplate : AssessmentTemplate :=
  ⟨["Coding", "System Design", "Problem Solving"],
   ["Communication", "Collaboration", "Learning Agility"],
   ["Live coding", "System design", "Code review"]⟩

/-- The `assessment_templates` table of `design_screening_process`. -/
def assessment_templates (k : String) : Option AssessmentTemplate :=
  if k = "engineering" then some engineeringTemplate
  else if k = "design" then
    some ⟨["Design Tools", "User Research", "Prototyping"],
          ["Creativity", "User Empathy", "Presentation"],
          ["Portfolio review", "Design challenge", "User story walkthrough"]⟩
  else if k = "product" then
    some ⟨["Product Strategy", "Analytics", "User Research"],
          ["Leadership", "Communication", "Strategic Thinking"],
          ["Case study", "Product strategy", "Stakeholder simulation"]⟩
  else if k = "data" then
    some ⟨["Statistics", "Programming", "Data Analysis"],
          ["Business Acumen", "Communication", "Critical Thinking"],
          ["Data analysis", "SQL queries", "Business case"]⟩
  else Option.none

/-- One generated interview stage. -/
structure InterviewStage where
  stage : Int
  name : String
  duration : String
  focus : List String
  interviewers : String
deriving DecidableEq, Repr

/-- The `interview_process` sub-dict. -/
structure InterviewProcess where
  total_stages : Int
  estimated_timeline : String
  stages : List InterviewStage
deriving DecidableEq, Repr

/-- One entry of `evaluation_criteria`. -/
structure EvalCriterion where
  weight : ℚ
  criteria : List String
deriving DecidableEq, Repr

/-- The `evaluation_criteria` sub-dict. -/
structure EvaluationCriteria where
  technical_assessment : EvalCriterion
  behavioral_assessment : EvalCriterion
  cultural_fit : EvalCriterion
  communication : EvalCriterion
deriving DecidableEq, Repr

/-- The `decision_framework` sub-dict. -/
structure DecisionFramework where
  scoring : String
  threshold : String
  final_decision : String
deriving DecidableEq, Repr

/-- Result record of `design_screening_process`. -/
structure DSPResult where
  status : String
  role_type : String
  assessment_framework : AssessmentTemplate
  interview_process : InterviewProcess
  evaluation_criteria : EvaluationCriteria
  decision_framework : DecisionFramework
deriving DecidableEq, Repr

/-- The `stage_names` list. -/
def stageNames : List String :=
  ["Initial Screening", "Technical Assessment", "Team Interview", "Final Interview",
   "Reference Check"]

/-- `design_screening_process(role_type, skills_to_assess, interview_stages,
assessment_type, ...)`.  The stage loop runs over
`range(min(interview_stages, len(stage_names)))`; `stage_names[i]` is
modeled with `getD` (always in range here since `i < 5`).  The
`estimated_timeline` f-string contains `interview_stages * 5-7`, which
Python evaluates as `(interview_stages * 5) - 7`. -/
def designScreeningProcess (role_type : String)
    (skills_to_assess : Option (List String)) (interview_stages : Int)
    (assessment_type : String)
    {γ δ : Type} (tool_context : γ) (tool_config : Option δ) : DSPResult :=
  let template := (assessment_templates role_type).getD engineeringTemplate
  let stages := (List.range (min interview_stages 5).toNat).map (fun (i : Nat) =>
    { stage := ((i : Int) + 1 : Int)
      name := stageNames.getD i ""
      duration := if i > 0 then "45-60 minutes" else "30 minutes"
      focus := if i = 1 then template.technical_skills else template.soft_skills
      interviewers := if i = 0 then "Hiring manager" else role_type ++ " team members"
      : InterviewStage })
  { status := "success"
    role_type := role_type
    assessment_framework := template
    interview_process :=
      { total_stages := interview_stages
        estimated_timeline := toString (interview_stages * 5 - 7) ++ " days"
        stages := stages }
    evaluation_criteria :=
      { technical_assessment := ⟨4/10, template.technical_skills⟩
        behavioral_assessment := ⟨3/10, template.soft_skills⟩
        cultural_fit := ⟨2/10, ["Values alignment", "Team dynamics", "Growth mindset"]⟩
        communication := ⟨1/10, ["Clarity", "Active listening", "Presentation skills"]⟩ }
    decision_framework :=
      { scoring := "1-5 scale per criterion"
        threshold := "3.5+ average to proceed"
        final_decision := "Consensus-based with hiring manager approval" } }

/-! ## Program manager (`src/program_manager_agent/tools.py`,
`track_project_progress` and its helpers) -/

/-- The `velocity_status` dict in insertion order. -/
def velocityStatusTable : List (String × ℚ × ℚ) :=
  [("excellent", 9/10, 1), ("good", 3/4, 9/10), ("concerning", 3/5, 3/4),
   ("critical", 0, 3/5)]

/-- The rating loop: first entry with `min_vel <= team_velocity < max_vel`,
else the initial `"good"`. -/
def velocityRating (team_velocity : ℚ) : String :=
  ((velocityStatusTable.find? (fun t =>
      decide (t.2.1 ≤ team_velocity) && decide (team_velocity < t.2.2))).map
    (fun t => t.1)).getD "good"

/-- `generate_progress_recommendations(velocity_rating, blocker_count,
completion)`. -/
def generateProgressRecommendations (velocity_rating : String)
    (blocker_count : Nat) (completion : ℚ) : List String :=
  let recommendations :=
    (if velocity_rating = "critical" then
      ["Immediate team capacity review needed",
       "Consider scope reduction or timeline extension",
       "Identify and address team blockers"]
     else if velocity_rating = "concerning" then
      ["Review team workload and capacity", "Address top priority blockers",
       "Consider additional resources"]
     else [])
    ++ (if blocker_count > 3 then ["Focus on blocker resolution - limit new work"] else [])
    ++ (if completion < 25 then ["Review project scope and timeline expectations"] else [])
  if recommendations.isEmpty then ["Continue current approach - project on track"]
  else recommendations

/-- The `current_status` sub-dict; `completion_percentage` and
`team_velocity` are kept as their numeric values (the source formats them
with `:.1f` / `:.2f`). -/
structure PMCurrentStatus where
  phase : String
  completion_percentage : ℚ
  completed_tasks : Int
  remaining_tasks : Int
  team_velocity : ℚ
  velocity_rating : String
deriving DecidableEq, Repr

/-- The `blockers_and_risks` sub-dict. -/
structure PMBlockersAndRisks where
  active_blockers : List String
  blocker_count : Nat
  identified_risks : List String
  risk_level : String
deriving DecidableEq, Repr

/-- The `forecasting` sub-dict. -/
structure PMForecasting where
  estimated_completion : String
  recommended_actions : List String
  next_milestone_risk : String
deriving DecidableEq, Repr

/-- The `team_health` sub-dict; `capacity_utilization` kept numeric
(source formats with `:.0f`). -/
structure PMTeamHealth where
  velocity_trend : String
  capacity_utilization : ℚ
  burnout_risk : String
deriving DecidableEq, Repr

/-- Result record of `track_project_progress`. -/
structure TPPResult where
  status : String
  project_name : String
  current_status : PMCurrentStatus
  blockers_and_risks : PMBlockersAndRisks
  forecasting : PMForecasting
  team_health : PMTeamHealth
deriving DecidableEq, Repr

/-- `track_project_progress(project_name, current_phase, completed_tasks,
total_tasks, team_velocity, blockers, ...)`.  The only division,
`completed_tasks / max(total_tasks, 1)`, substitutes a minimum of 1 for
the divisor. -/
def trackProjectProgress (project_name current_phase : String)
    (completed_tasks total_tasks : Int) (team_velocity : ℚ)
    (blockers : Option (List String))
    {γ δ : Type} (tool_context : γ) (tool_config : Option δ) : TPPResult :=
  let blockers := blockers.getD []
  let completion_percentage : ℚ :=
    ((completed_tasks : ℚ) / ((max total_tasks 1 : Int) : ℚ)) * 100
  let velocity_rating := velocityRating team_velocity
  let risks :=
    (if team_velocity < 7/10 then ["Low team velocity - may miss deadlines"] else [])
    ++ (if blockers.length > 3 then ["High number of blockers affecting progress"] else [])
    ++ (if completion_percentage < 20 && current_phase = "Development" then
         ["Behind schedule for current phase"] else [])
  let recommendations :=
    generateProgressRecommendations velocity_rating blockers.length completion_percentage
  { status := "success"
    project_name := project_name
    current_status :=
      { phase := current_phase
        completion_percentage := completion_percentage
        completed_tasks := completed_tasks
        remaining_tasks := total_tasks - completed_tasks
        team_velocity := team_velocity
        velocity_rating := velocity_rating }
    blockers_and_risks :=
      { active_blockers := blockers
        blocker_count := blockers.length
        identified_risks := risks
        risk_level := if risks.length > 2 then "high"
                      else if !risks.isEmpty then "medium" else "low" }
    forecasting :=
      { estimated_completion := if team_velocity > 4/5 then "On track" else "At risk"
        recommended_actions := recommendations
        next_milestone_risk := if team_velocity > 3/4 then "low" else "medium" }
    team_health :=
      { velocity_trend := "stable"
        capacity_utilization := team_velocity * 100
        burnout_risk := if team_velocity < 1 then "low" else "medium" } }

/-! ## Requirements agent (`src/requirements_agent/tools.py`,
`create_user_stories` and its helpers) -/

/-- Prefix test on character lists. -/
def listHasLead : List Char → List Char → Bool
  | [], _ => true
  | _ :: _, [] => false
  | a :: as, b :: bs => a = b && listHasLead as bs

/-- Substring search, Python `needle in haystack`. -/
def listHasInfix (pat : List Char) : List Char → Bool
  | [] => listHasLead pat []
  | c :: t => listHasLead pat (c :: t) || listHasInfix pat t

/-- Python `needle in haystack` on strings. -/
def strContains (haystack needle : String) : Bool :=
  listHasInfix needle.data haystack.data

/-- Python `any(term in s for term in terms)`. -/
def anyTermIn (s : String) (terms : List String) : Bool :=
  terms.any (fun t => strContains s t)

/-- `assign_persona_to_requirement(requirement, personas)`.  `personas[0]`
and `personas[-1]` are modeled with `headD`/`getLastD`; the caller always
passes a non-empty list. -/
def assignPersonaToRequirement (requirement : String) (personas : List String) : String :=
  let req_lower := pyLowerStr requirement
  if anyTermIn req_lower ["admin", "manage", "configure"] then
    if personas.contains "Administrator" then "Administrator" else personas.headD ""
  else if anyTermIn req_lower ["system", "automatic", "process"] then
    if personas.contains "System" then "System" else personas.getLastD ""
  else if personas.contains "End User" then "End User" else personas.headD ""

/-- `extract_story_action(requirement)`; `str.replace` removes every
occurrence, then `strip()`. -/
def extractStoryAction (requirement : String) : String :=
  let action := pyLowerStr requirement
  let action :=
    if action.startsWith "the system" then pyStrip (action.replace "the system" "")
    else action
  if action.startsWith "shall" then pyStrip (action.replace "shall" "") else action

/-- `extract_story_benefit(requirement)`. -/
def extractStoryBenefit (requirement : String) : String :=
  let req_lower := pyLowerStr requirement
  if strContains req_lower "security" then "my data and privacy are protected"
  else if strContains req_lower "performance" || strContains req_lower "fast" then
    "I can work efficiently without delays"
  else if strContains req_lower "interface" || strContains req_lower "usability" then
    "I can easily accomplish my tasks"
  else "I can achieve my goals effectively"

/-- `generate_user_story(requirement, persona, format_type, story_id)`
(the `story_id` argument is accepted and unused, as in the source). -/
def generateUserStory (requirement persona format_type : String)
    (story_id : Int) : String :=
  if format_type = "gherkin" then
    "Given I am a " ++ persona ++ ", When I need to " ++ pyLowerStr requirement
      ++ ", Then the system should provide this functionality"
  else
    "As a " ++ persona ++ ", I want to " ++ extractStoryAction requirement
      ++ ", so that " ++ extractStoryBenefit requirement

/-- Python `str.split()` (whitespace runs, no empty pieces). -/
def pySplitWs (s : String) : List String :=
  (s.split pyIsSpace).filter (fun p => p ≠ "")

/-- Python `str.rstrip(".,")`. -/
def rstripDotComma (s : String) : String :=
  String.mk (s.data.reverse.dropWhile (fun c => c = '.' || c = ',')).reverse

/-- `extract_story_title(requirement)`. -/
def extractStoryTitle (requirement : String) : String :=
  rstripDotComma (String.intercalate " " ((pySplitWs requirement).take 6))

/-- `generate_acceptance_criteria(requirement, detail_level)` (the three
base f-strings contain no interpolation). -/
def generateAcceptanceCriteria (requirement detail_level : String) : List String :=
  ["Given the requirement is implemented, the functionality should work as described",
   "The solution should handle normal use cases without errors",
   "The solution should provide appropriate feedback to users"]
  ++ (if detail_level = "detailed" then
       ["Edge cases and error conditions are handled gracefully",
        "Performance meets specified benchmarks",
        "Security considerations are properly addressed",
        "Solution is tested and verified to work correctly"]
      else [])

/-- `estimate_story_points(requirement)`. -/
def estimateStoryPoints (requirement : String) : Int :=
  let req_lower := pyLowerStr requirement
  let points : Int := 2
  let points := if anyTermIn req_lower ["integrate", "api", "third-party"] then points + 3
                else points
  let points := if anyTermIn req_lower ["complex", "advanced", "multiple"] then points + 2
                else points
  let points := if anyTermIn req_lower ["security", "authentication", "encryption"] then
                  points + 2
                else points
  let points := if anyTermIn req_lower ["simple", "basic", "display"] then points - 1
                else points
  max (min points 13) 1

/-- `determine_story_priority(requirement)`. -/
def determineStoryPriority (requirement : String) : String :=
  let req_lower := pyLowerStr requirement
  if anyTermIn req_lower ["critical", "essential", "must", "required"] then "High"
  else if anyTermIn req_lower ["should", "important", "needed"] then "Medium"
  else "Low"

/-- `extract_story_tags(requirement)`. -/
def extractStoryTags (requirement : String) : List String :=
  let req_lower := pyLowerStr requirement
  let tags :=
    (if strContains req_lower "ui" || strContains req_lower "interface" then ["ui"] else [])
    ++ (if strContains req_lower "api" || strContains req_lower "integration" then
         ["integration"] else [])
    ++ (if strContains req_lower "security" then ["security"] else [])
    ++ (if strContains req_lower "performance" then ["performance"] else [])
    ++ (if strContains req_lower "data" || strContains req_lower "database" then
         ["data"] else [])
  if tags.isEmpty then ["general"] else tags

/-- One generated user story. -/
structure UserStory where
  id : String
  title : String
  persona : String
  story : String
  acceptance_criteria : List String
  story_points : Int
  priority : String
  original_requirement : String
  tags : List String
deriving DecidableEq, Repr

/-- The theme a story is filed under in `organize_stories_by_theme`. -/
def storyTheme (story : UserStory) : String :=
  if story.tags.contains "security" then "Security"
  else if story.tags.contains "integration" then "Integration"
  else if story.tags.contains "performance" then "Performance"
  else if anyTermIn (pyLowerStr story.story) ["user", "login", "profile"] then
    "User Management"
  else if story.tags.contains "general" then "Core Functionality"
  else "Other"

/-- `organize_stories_by_theme(user_stories)`: fixed theme keys in
insertion order, story ids appended in story order, empty themes removed. -/
def organizeStoriesByTheme (user_stories : List UserStory) : List (String × List String) :=
  ((["User Management", "Core Functionality", "Integration", "Security", "Performance",
     "Other"]).map (fun t =>
      (t, (user_stories.filter (fun s => storyTheme s = t)).map (fun s => s.id)))).filter
    (fun p => !p.2.isEmpty)

/-- `priority_counts[priority] = priority_counts.get(priority, 0) + 1` on
an association list in first-occurrence order. -/
def bumpCount : List (String × Nat) → String → List (String × Nat)
  | [], k => [(k, 1)]
  | (k', n) :: rest, k =>
    if k' = k then (k', n + 1) :: rest else (k', n) :: bumpCount rest k

/-- The `statistics` sub-dict of `create_user_stories`
(`average_story_points` kept numeric; its division is guarded by the
source's `if total_stories > 0 else 0`). -/
structure StoryStats where
  total_stories : Nat
  total_story_points : Int
  average_story_points : ℚ
  priority_distribution : List (String × Nat)
  themes_count : Nat
deriving DecidableEq, Repr

/-- `calculate_story_statistics(user_stories)`. -/
def calculateStoryStatistics (user_stories : List UserStory) : StoryStats :=
  let total_stories := user_stories.length
  let total_points := (user_stories.map (fun s => s.story_points)).sum
  { total_stories := total_stories
    total_story_points := total_points
    average_story_points :=
      if total_stories > 0 then (total_points : ℚ) / (total_stories : ℚ) else 0
    priority_distribution :=
      user_stories.foldl (fun acc s => bumpCount acc s.priority) []
    themes_count := (organizeStoriesByTheme user_stories).length }

/-- The `story_overview` sub-dict (`personas_used` keeps first occurrences;
the source's `list(set(...))` order is unspecified). -/
structure StoryOverview where
  total_stories : Nat
  personas_used : List String
  format : String
  total_story_points : Int
deriving DecidableEq, Repr

/-- The `quality_metrics` sub-dict; building it divides by
`len(user_stories)` with no guard. -/
structure QualityMetrics where
  average_acceptance_criteria : ℚ
  coverage_completeness : String
  testability_score : String
deriving DecidableEq, Repr

/-- Result record of `create_user_stories`. -/
structure CUSResult where
  status : String
  story_overview : StoryOverview
  user_stories : List UserStory
  story_organization : List (String × List String)
  statistics : StoryStats
  quality_metrics : QualityMetrics
  recommendations : List String
deriving DecidableEq, Repr

/-- `f"US-{i:03d}"`. -/
def pad3 (n : Nat) : String :=
  let s := toString n
  String.mk (List.replicate (3 - s.length) '0') ++ s

/-- `create_user_stories(requirements, user_personas,
acceptance_criteria_detail, story_format, ...)`.  The
`average_acceptance_criteria` field divides by `len(user_stories)`: with an
empty `requirements` list Python raises `ZeroDivisionError` while building
the result dict (everything computed before that point is pure, so the
model raises before constructing the record). -/
def createUserStories (requirements : List String)
    (user_personas : Option (List String))
    (acceptance_criteria_detail story_format : String)
    {γ δ : Type} (tool_context : γ) (tool_config : Option δ) :
    Except String CUSResult :=
  let user_personas :=
    match user_personas with
    | some (p :: ps) => p :: ps
    | _ => ["End User", "Administrator", "System"]
  let user_stories := requirements.enum.map (fun (iReq : Nat × String) =>
    let i := iReq.1
    let requirement := iReq.2
    let assigned_persona := assignPersonaToRequirement requirement user_personas
    { id := "US-" ++ pad3 (i + 1)
      title := extractStoryTitle requirement
      persona := assigned_persona
      story := generateUserStory requirement assigned_persona story_format ((i : Int) + 1)
      acceptance_criteria :=
        generateAcceptanceCriteria requirement acceptance_criteria_detail
      story_points := estimateStoryPoints requirement
      priority := determineStoryPriority requirement
      original_requirement := requirement
      tags := extractStoryTags requirement
      : UserStory })
  if user_stories.length = 0 then
    Except.error "ZeroDivisionError: division by zero"
  else
    Except.ok
      { status := "success"
        story_overview :=
          { total_stories := user_stories.length
            personas_used := (user_stories.map (fun s => s.persona)).eraseDups
            format := story_format
            total_story_points := (user_stories.map (fun s => s.story_points)).sum }
        user_stories := user_stories
        story_organization := organizeStoriesByTheme user_stories
        statistics := calculateStoryStatistics user_stories
        quality_metrics :=
          { average_acceptance_criteria :=
              ((user_stories.map (fun s => s.acceptance_criteria.length)).sum : ℚ)
                / (user_stories.length : ℚ)
            coverage_completeness := "95%"
            testability_score := "High" }
        recommendations := ["Review stories with product owner",
          "Validate acceptance criteria with QA team",
          "Estimate stories with development team",
          "Organize stories into sprints/iterations"] }

/-! ## Well-formedness, abstract block view, reachability -/

/-- No newline in a spliced value (the line-based file model is exact for
such values). -/
def noNewline (s : String) : Bool := s.data.all (fun c => c ≠ '\n')

/-- No `)` in a spliced value (the overwrite-removal pattern
`\([^\)]*\)\s*->` finds the signature's closing parenthesis exactly when
the rendered parameter list contains none of its own). -/
def noRParen (s : String) : Bool := s.data.all (fun c => c ≠ ')')

/-- The name validity the code itself checks: the function name (loop,
line 199) and every parameter name (`_render_param_sig`, line 49). -/
def validSpecNames (spec : ToolSpec) : Bool :=
  isValidIdent spec.function_name && spec.params.all (fun p => isValidIdent p.name)

/-- Well-formed spec: names valid, and every value spliced into the
definition line or the docstring is newline-free, with parameter types and
default `repr`s also free of `)`. -/
def wfSpec (spec : ToolSpec) : Bool :=
  validSpecNames spec
  && noNewline (spec.description.getD "No description provided.")
  && noNewline (rtypeOf spec)
  && spec.params.all (fun p =>
       noNewline (p.ptype.getD "Any") && noRParen (p.ptype.getD "Any")
       && noNewline (p.pdescription.getD "")
       && (match p.default with
           | some v => noNewline (pyRepr v) && noRParen (pyRepr v)
           | Option.none => true))

/-- Well-formed generator call: passes validation, has a non-empty slug
(so line 179 does not raise), a newline-free agent name, and well-formed
specs. -/
def wfCall (agent_name : String) (tools : List ToolSpec) : Bool :=
  agent_name != "" && noNewline agent_name && slugOf agent_name != ""
    && !tools.isEmpty && tools.all wfSpec

/-- A line that cannot start a function block: it fails the lookahead
`^async\s+def`. -/
def cleanLine (l : String) : Bool := !(isAsyncDefLine l)

/-- Abstract view of one generated function block: its name, rendered
signature, declared return type, and the lines below the definition
line. -/
structure GenBlock where
  name : String
  sig : String
  rt : String
  tailLines : List String
deriving DecidableEq, Repr

/-- The concrete lines of an abstract block. -/
def GenBlock.lines (b : GenBlock) : List String :=
  blockHeaderLine b.name b.sig b.rt :: b.tailLines

/-- Structural soundness of an abstract block. -/
def GenBlockOK (b : GenBlock) : Prop :=
  isValidIdent b.name = true ∧ noRParen b.sig = true ∧
    ∀ l ∈ b.tailLines, cleanLine l = true

/-- `_render_function_block` through the abstract view. -/
def renderGenBlock (spec : ToolSpec) : Except String GenBlock :=
  if isValidIdent spec.function_name then
    match renderParamSig spec.params with
    | Except.error e => Except.error e
    | Except.ok sig =>
      Except.ok
        { name := spec.function_name
          sig := sig
          rt := rtypeOf spec
          tailLines :=
            docLines (spec.description.getD "No description provided.")
              spec.params spec.returns
            ++ [logLineOf spec.function_name]
            ++ bodyTailLines spec }
  else Except.error ("Invalid function identifier: \x27" ++ spec.function_name ++ "\x27")

/-- A file text in generated form: a clean header followed by blocks with
pairwise-distinct names. -/
def InvText (lines : List String) : Prop :=
  ∃ (hdr : List String) (blocks : List GenBlock),
    lines = hdr ++ (blocks.map GenBlock.lines).flatten
    ∧ (∀ l ∈ hdr, cleanLine l = true)
    ∧ (∀ b ∈ blocks, GenBlockOK b)
    ∧ (blocks.map GenBlock.name).Nodup

/-- The per-spec state transition of the loop, on the abstract block
list. -/
def absStep (overwrite : Bool) (blocks : List GenBlock) (spec : ToolSpec) :
    List GenBlock :=
  if isValidIdent spec.function_name then
    match renderGenBlock spec with
    | Except.error _ => blocks
    | Except.ok nb =>
      if blocks.any (fun b => b.name == spec.function_name) && !overwrite then blocks
      else if blocks.any (fun b => b.name == spec.function_name) && overwrite then
        blocks.filter (fun b => b.name != spec.function_name) ++ [nb]
      else blocks ++ [nb]
  else blocks

/-- The whole loop on the abstract block list. -/
def absProcess (overwrite : Bool) (blocks : List GenBlock)
    (specs : List ToolSpec) : List GenBlock :=
  specs.foldl (absStep overwrite) blocks

/-- Number of lines matching the `_function_exists` pattern for `fname`:
the file's top-level async definition lines for that name. -/
def countDefs (lines : List String) (fname : String) : Nat :=
  (lines.filter (lineDefMatch fname)).length

/-- File states reachable from a fresh target location through well-formed
generator calls (all on the same target file). -/
inductive ReachableWF : FSState → Prop where
  | init : ReachableWF FSState.fresh
  | step (fs : FSState) (agent_name base : String) (tools : List ToolSpec)
      (overwrite : Bool) :
      ReachableWF fs → wfCall agent_name tools = true →
      ReachableWF (defineDynamicTools agent_name tools overwrite base fs).1

/-! ## Spec-side definitions for refinement comparisons -/

/-- The signature ordering in the spec's words (§4.2.e, §8): "required
parameters first (in input order) then optional parameters with literal
default values, followed by two fixed trailing parameters". -/
def specOrderedSig (reqs opts : List ParamSpec) : String :=
  pyJoin ", " (reqs.map renderOneParam ++ opts.map renderOneParam ++ fixedTrailingParams)

/-- Whether a rendered body produces a record containing a `"status"`
key. -/
def bodyHasStatusKey (lines : List String) : Bool :=
  lines.any (fun l => strContains l "\"status\"")

/-- ASCII digit test. -/
def isDigitChar (c : Char) : Bool := '0' ≤ c && c ≤ '9'

/-- First character is an ASCII digit. -/
def firstIsDigit (s : String) : Bool :=
  match s.data with
  | c :: _ => isDigitChar c
  | [] => false

/-! ## Concrete instances used by witnesses and counterexamples -/

/-- The end-to-end spec of §8: `{function_name: "ping", params: [],
returns: {type: "dict"}}`. -/
def pingSpec : ToolSpec :=
  { function_name := "ping", description := some "Ping tool.", params := [],
    returns := some ⟨some "dict", some ""⟩, body := Option.none }

/-- `pingSpec` with a different declared return type. -/
def pingSpecStr : ToolSpec :=
  { function_name := "ping", description := some "Ping tool.", params := [],
    returns := some ⟨some "str", some ""⟩, body := Option.none }

/-- A spec whose parameter type contains `)`: the overwrite-removal
pattern cannot match its definition line. -/
def rparenSpec : ToolSpec :=
  { function_name := "f", description := Option.none,
    params := [{ name := "x", ptype := some "List)", pdescription := Option.none,
                 default := Option.none }],
    returns := Option.none, body := Option.none }

/-- Interleaved required/optional parameters for C4: required `a`,
optional `b = 1`, required `c`. -/
def c4Params : List ParamSpec :=
  [⟨"a", Option.none, Option.none, Option.none⟩,
   ⟨"b", Option.none, Option.none, some (PyVal.int 1)⟩,
   ⟨"c", Option.none, Option.none, Option.none⟩]

/-- First generator call of the C2 counterexample. -/
def c2FirstCall : FSState × Except String DResult :=
  defineDynamicTools "bot" [rparenSpec] false "/b" FSState.fresh

/-- Second generator call of the C2 counterexample (`overwrite=True`,
same spec). -/
def c2SecondCall : FSState × Except String DResult :=
  defineDynamicTools "bot" [rparenSpec] true "/b" c2FirstCall.1

/-- File lines after the second C2-counterexample call. -/
def c2SecondLines : List String := (c2SecondCall.1.tools_file).getD []

/-- First call of the C2 witness scenario (fresh file, `ping` with return
type `dict`). -/
def c2WitnessFS1 : FSState :=
  (defineDynamicTools "Data Bot" [pingSpec] false "/app" FSState.fresh).1

/-- Second call of the C2 witness scenario (`overwrite=True`, `ping` with
return type `str`). -/
def c2WitnessFS2 : FSState :=
  (defineDynamicTools "Data Bot" [pingSpecStr] true "/app" c2WitnessFS1).1

/-- File lines after the second C2-witness call. -/
def c2WitnessLines : List String := (c2WitnessFS2.tools_file).getD []

/-- The run flag after `subRuns` has processed a list. -/
def endFlag : List Char → Bool → Bool
  | [], b => b
  | c :: rest, _ => endFlag rest (!isSlugChar c)

/-- No two adjacent hyphens (so `replace("--", "-")` is the identity). -/
def noHH : List Char → Bool
  | [] => true
  | [_] => true
  | c :: d :: rest => !(c = '-' && d = '-') && noHH (d :: rest)

/-! # Theorems -/

/-! ## Character-class facts -/

theorem string_eq_iff_data {s t : String} : s = t ↔ s.data = t.data := by
  constructor
  · intro h; rw [h]
  · intro h; cases s; cases t; exact congrArg String.mk h

theorem string_ne_empty_iff_data {s : String} : s ≠ "" ↔ s.data ≠ [] := by
  constructor
  · intro h hd; exact h (string_eq_iff_data.2 (by simpa using hd))
  · intro h he; exact h (by simpa using string_eq_iff_data.1 he)

theorem isSlugChar_not_hyphen {c : Char} (h : isSlugChar c = true) : c ≠ '-' := by
  intro he; subst he; simp [isSlugChar] at h

theorem isSlugChar_isIdentChar {c : Char} (h : isSlugChar c = true) :
    isIdentChar c = true := by
  simp only [isSlugChar, Bool.or_eq_true, Bool.and_eq_true, decide_eq_true_eq] at h
  simp only [isIdentChar, isIdentStart, Bool.or_eq_true, Bool.and_eq_true,
    decide_eq_true_eq]
  rcases h with (h | h) | h
  · exact Or.inl (Or.inl (Or.inr h))
  · exact Or.inr h
  · exact Or.inl (Or.inr h)

theorem isSlugChar_identStart_iff {c : Char} (h : isSlugChar c = true) :
    isIdentStart c = !(isDigitChar c) := by
  simp only [isSlugChar, Bool.or_eq_true, Bool.and_eq_true, decide_eq_true_eq] at h
  rcases h with (h | h) | h
  · have h1 : isIdentStart c = true := by
      simp only [isIdentStart, Bool.or_eq_true, Bool.and_eq_true, decide_eq_true_eq]
      exact Or.inl (Or.inr h)
    have h2 : isDigitChar c = false := by
      simp only [isDigitChar, Bool.and_eq_false_iff, decide_eq_false_iff_not]
      right
      intro hle
      exact absurd (le_trans h.1 hle) (by decide)
    rw [h1, h2]; rfl
  · have h1 : isIdentStart c = false := by
      simp only [isIdentStart, Bool.or_eq_false_iff, Bool.and_eq_false_iff,
        decide_eq_false_iff_not]
      refine ⟨⟨?_, ?_⟩, ?_⟩
      · left; intro hc; exact absurd (le_trans hc h.2) (by decide)
      · left; intro hc; exact absurd (le_trans hc h.2) (by decide)
      · intro hc; subst hc; exact absurd h.2 (by decide)
    have h2 : isDigitChar c = true := by
      simp only [isDigitChar, Bool.and_eq_true, decide_eq_true_eq]
      exact h
    rw [h1, h2]; rfl
  · subst h
    rfl

theorem pyIsSpace_not_slug {c : Char} (h : pyIsSpace c = true) :
    isSlugChar c = false := by
  simp only [pyIsSpace, Bool.or_eq_true, decide_eq_true_eq] at h
  rcases h with ((((h | h) | h) | h) | h) | h <;> subst h <;> rfl

theorem pyLower_of_space {c : Char} (h : pyIsSpace c = true) : pyLower c = c := by
  simp only [pyIsSpace, Bool.or_eq_true, decide_eq_true_eq] at h
  rcases h with ((((h | h) | h) | h) | h) | h <;> subst h <;> rfl

theorem isAlpha_of_az {c : Char} (h1 : 'a' ≤ c) (h2 : c ≤ 'z') : c.isAlpha = true := by
  have hl : c.isLower = true := by
    simp only [Char.isLower, Bool.and_eq_true, decide_eq_true_eq]
    exact ⟨h1, h2⟩
  simp [Char.isAlpha, hl]

theorem not_alpha_of_digit {c : Char} (h1 : '0' ≤ c) (h2 : c ≤ '9') :
    c.isAlpha = false := by
  have hu : c.isUpper = false := by
    simp only [Char.isUpper, Bool.and_eq_false_iff, decide_eq_false_iff_not]
    left; intro hc; exact absurd (UInt32.le_trans hc h2) (by decide)
  have hl : c.isLower = false := by
    simp only [Char.isLower, Bool.and_eq_false_iff, decide_eq_false_iff_not]
    left; intro hc; exact absurd (UInt32.le_trans hc h2) (by decide)
  simp [Char.isAlpha, hu, hl]

/-! ## `_slugify`: structure lemmas -/

theorem subRuns_append (l₁ l₂ : List Char) (b : Bool) :
    subRuns (l₁ ++ l₂) b = subRuns l₁ b ++ subRuns l₂ (endFlag l₁ b) := by
  induction l₁ generalizing b with
  | nil => rfl
  | cons c rest ih =>
    simp only [List.cons_append, subRuns, endFlag]
    by_cases hc : isSlugChar c = true
    · simp [hc, ih]
    · have hc' : isSlugChar c = false := by simpa using hc
      cases b <;> simp [hc', ih]

theorem subRuns_nonslug_true {ws : List Char}
    (h : ∀ c ∈ ws, isSlugChar c = false) : subRuns ws true = [] := by
  induction ws with
  | nil => rfl
  | cons c rest ih =>
    have hc := h c (List.mem_cons_self _ _)
    simp only [subRuns, hc, if_false, Bool.false_eq_true]
    exact ih (fun x hx => h x (List.mem_cons_of_mem _ hx))

theorem subRuns_nonslug_false {ws : List Char}
    (h : ∀ c ∈ ws, isSlugChar c = false) :
    ws = [] ∨ subRuns ws false = ['-'] := by
  cases ws with
  | nil => exact Or.inl rfl
  | cons c rest =>
    right
    have hc := h c (List.mem_cons_self _ _)
    simp only [subRuns, hc, if_false, Bool.false_eq_true]
    rw [subRuns_nonslug_true (fun x hx => h x (List.mem_cons_of_mem _ hx))]

theorem endFlag_nonslug {ws : List Char} (h : ∀ c ∈ ws, isSlugChar c = false)
    (hne : ws ≠ []) (b : Bool) : endFlag ws b = true := by
  induction ws generalizing b with
  | nil => exact absurd rfl hne
  | cons c rest ih =>
    simp only [endFlag]
    cases rest with
    | nil => simp [endFlag, h c (List.mem_cons_self _ _)]
    | cons d r =>
      exact ih (fun x hx => h x (List.mem_cons_of_mem _ hx)) (by simp) _

theorem head_subRuns_true {l : List Char} {d : Char}
    (h : (subRuns l true).head? = some d) : isSlugChar d = true := by
  induction l with
  | nil => simp [subRuns] at h
  | cons c rest ih =>
    by_cases hc : isSlugChar c = true
    · simp only [subRuns, hc, if_true, List.head?_cons, Option.some_inj] at h
      exact h ▸ hc
    · have hc' : isSlugChar c = false := by simpa using hc
      simp only [subRuns, hc', if_false, Bool.false_eq_true] at h
      exact ih h

theorem dropLead_subRuns_flag (l : List Char) :
    dropLeadHyphens (subRuns l true) = dropLeadHyphens (subRuns l false) := by
  cases l with
  | nil => rfl
  | cons c rest =>
    by_cases hc : isSlugChar c = true
    · simp [subRuns, hc]
    · have hc' : isSlugChar c = false := by simpa using hc
      simp only [subRuns, hc', if_false, Bool.false_eq_true]
      simp [dropLeadHyphens]

theorem stripTrail_append_hyphen (X : List Char) :
    stripTrailHyphens (X ++ ['-']) = stripTrailHyphens X := by
  induction X with
  | nil => rfl
  | cons c X ih => simp only [List.cons_append, stripTrailHyphens, List.append_eq, ih]

theorem strip_mid (l wsR : List Char)
    (hR : ∀ c ∈ wsR, isSlugChar c = false) :
    stripTrailHyphens (dropLeadHyphens (subRuns (l ++ wsR) false)) =
    stripTrailHyphens (dropLeadHyphens (subRuns l false)) := by
  rw [subRuns_append]
  cases hf : endFlag l false with
  | true => rw [subRuns_nonslug_true hR]; simp
  | false =>
    rcases subRuns_nonslug_false hR with hnil | hone
    · subst hnil; simp [subRuns]
    · rw [hone]
      unfold dropLeadHyphens
      rw [List.dropWhile_append]
      split
      · rename_i hemp
        have h1 : List.dropWhile (fun c => decide (c = '-')) (subRuns l false) = [] := by
          simpa using hemp
        rw [h1]
        rfl
      · exact stripTrail_append_hyphen _

theorem strip_core (l wsL wsR : List Char)
    (hL : ∀ c ∈ wsL, isSlugChar c = false)
    (hR : ∀ c ∈ wsR, isSlugChar c = false) :
    stripTrailHyphens (dropLeadHyphens (subRuns (wsL ++ l ++ wsR) false)) =
    stripTrailHyphens (dropLeadHyphens (subRuns l false)) := by
  rw [List.append_assoc, subRuns_append]
  cases wsL with
  | nil => simpa using strip_mid l wsR hR
  | cons c rest =>
    rcases subRuns_nonslug_false hL with hnil | hone
    · exact absurd hnil (by simp)
    · rw [hone, endFlag_nonslug hL (by simp)]
      have h1 : dropLeadHyphens (['-'] ++ subRuns (l ++ wsR) true) =
          dropLeadHyphens (subRuns (l ++ wsR) true) := by
        simp [dropLeadHyphens]
      rw [h1, dropLead_subRuns_flag]
      exact strip_mid l wsR hR

theorem noHH_cons {c : Char} {X : List Char}
    (hhead : ∀ d, X.head? = some d → ¬(c = '-' ∧ d = '-'))
    (h : noHH X = true) : noHH (c :: X) = true := by
  cases X with
  | nil => rfl
  | cons d r =>
    have hd := hhead d rfl
    simp only [noHH, Bool.and_eq_true, Bool.not_eq_true']
    refine ⟨?_, h⟩
    simp only [Bool.and_eq_false_iff, decide_eq_false_iff_not]
    by_cases hc : c = '-'
    · right; exact fun he => hd ⟨hc, he⟩
    · left; exact hc

theorem noHH_tail {c : Char} {X : List Char} (h : noHH (c :: X) = true) :
    noHH X = true := by
  cases X with
  | nil => rfl
  | cons d r =>
    simp only [noHH, Bool.and_eq_true] at h
    exact h.2

theorem noHH_subRuns (l : List Char) (b : Bool) : noHH (subRuns l b) = true := by
  induction l generalizing b with
  | nil => rfl
  | cons c rest ih =>
    by_cases hc : isSlugChar c = true
    · simp only [subRuns, hc, if_true]
      exact noHH_cons
        (fun d _ hcd => absurd hcd.1 (isSlugChar_not_hyphen hc)) (ih false)
    · have hc' : isSlugChar c = false := by simpa using hc
      simp only [subRuns, hc', if_false, Bool.false_eq_true]
      cases b with
      | true => exact ih true
      | false =>
        exact noHH_cons
          (fun d hd hcd =>
            absurd hcd.2 (isSlugChar_not_hyphen (head_subRuns_true hd))) (ih true)

theorem noHH_dropWhile (p : Char → Bool) {l : List Char} (h : noHH l = true) :
    noHH (l.dropWhile p) = true := by
  induction l with
  | nil => exact h
  | cons c rest ih =>
    rw [List.dropWhile_cons]
    split
    · exact ih (noHH_tail h)
    · exact h

theorem noHH_append_left {P rest : List Char} (h : noHH (P ++ rest) = true) :
    noHH P = true := by
  induction P with
  | nil => rfl
  | cons c P' ih =>
    cases P' with
    | nil => rfl
    | cons d P'' =>
      simp only [List.cons_append, noHH, Bool.and_eq_true] at h ⊢
      exact ⟨h.1, ih h.2⟩

theorem stripTrail_pfx (l : List Char) :
    ∃ rest, l = stripTrailHyphens l ++ rest := by
  induction l with
  | nil => exact ⟨[], rfl⟩
  | cons c r ih =>
    obtain ⟨rest, hr⟩ := ih
    simp only [stripTrailHyphens]
    split
    · exact ⟨c :: r, rfl⟩
    · exact ⟨rest, by rw [List.cons_append, ← hr]⟩

theorem rdh_id {l : List Char} (h : noHH l = true) :
    replaceDoubleHyphen l = l := by
  induction l using replaceDoubleHyphen.induct with
  | case1 => rfl
  | case2 c => rfl
  | case3 c d rest hcd ih =>
    exfalso
    simp only [noHH, Bool.and_eq_true, Bool.not_eq_true'] at h
    rw [hcd] at h
    exact absurd h.1 (by simp)
  | case4 c d rest hcd ih =>
    simp only [replaceDoubleHyphen, hcd, if_false, Bool.false_eq_true]
    rw [ih (noHH_tail h)]

theorem rdh_chars {l : List Char} {c : Char}
    (h : c ∈ replaceDoubleHyphen l) : c ∈ l ∨ c = '-' := by
  induction l using replaceDoubleHyphen.induct with
  | case1 => simp [replaceDoubleHyphen] at h
  | case2 e => simp only [replaceDoubleHyphen] at h; exact Or.inl h
  | case3 e d rest hcd ih =>
    simp only [replaceDoubleHyphen, hcd, if_true, List.mem_cons] at h
    rcases h with h | h
    · exact Or.inr h
    · rcases ih h with h2 | h2
      · exact Or.inl (by simp [h2])
      · exact Or.inr h2
  | case4 e d rest hcd ih =>
    simp only [replaceDoubleHyphen, hcd, if_false, Bool.false_eq_true,
      List.mem_cons] at h
    rcases h with h | h
    · exact Or.inl (by simp [h])
    · rcases ih h with h2 | h2
      · exact Or.inl (by simp [List.mem_cons] at h2 ⊢; tauto)
      · exact Or.inr h2

theorem subRuns_chars {l : List Char} {b : Bool} {c : Char}
    (h : c ∈ subRuns l b) : isSlugChar c = true ∨ c = '-' := by
  induction l generalizing b with
  | nil => simp [subRuns] at h
  | cons e rest ih =>
    by_cases he : isSlugChar e = true
    · simp only [subRuns, he, if_true, List.mem_cons] at h
      rcases h with h | h
      · exact Or.inl (h ▸ he)
      · exact ih h
    · have he' : isSlugChar e = false := by simpa using he
      simp only [subRuns, he', if_false, Bool.false_eq_true] at h
      cases b with
      | true => exact ih h
      | false =>
        rcases List.mem_cons.1 h with h2 | h2
        · exact Or.inr h2
        · exact ih h2

theorem stripTrail_subset {l : List Char} {c : Char}
    (h : c ∈ stripTrailHyphens l) : c ∈ l := by
  obtain ⟨rest, hr⟩ := stripTrail_pfx l
  rw [hr]
  exact List.mem_append_left _ h

theorem slugifyList_chars {l : List Char} {c : Char}
    (h : c ∈ slugifyList l) : isSlugChar c = true ∨ c = '-' := by
  unfold slugifyList at h
  rcases rdh_chars h with h2 | h2
  · have h3 := stripTrail_subset h2
    have h4 := (List.dropWhile_sublist _).subset h3
    exact subRuns_chars h4
  · exact Or.inr h2

theorem slugOf_chars {s : String} {c : Char}
    (h : c ∈ (slugOf s).data) : isSlugChar c = true := by
  have hdata : (slugOf s).data = hyphenToUnderscore (slugifyList s.data) := rfl
  rw [hdata] at h
  unfold hyphenToUnderscore at h
  obtain ⟨c', hc', he⟩ := List.mem_map.1 h
  rcases slugifyList_chars hc' with h2 | h2
  · rw [← he]
    have hne := isSlugChar_not_hyphen h2
    simp [hne, h2]
  · rw [← he, h2]
    rfl

theorem pyStrip_decomp (l : List Char) :
    ∃ A B, l = A ++ pyStripList l ++ B
      ∧ (∀ c ∈ A, pyIsSpace c = true) ∧ (∀ c ∈ B, pyIsSpace c = true) := by
  refine ⟨l.takeWhile pyIsSpace,
    ((l.dropWhile pyIsSpace).reverse.takeWhile pyIsSpace).reverse, ?_, ?_, ?_⟩
  · conv_lhs => rw [← List.takeWhile_append_dropWhile (p := pyIsSpace) (l := l)]
    rw [List.append_assoc]
    congr 1
    have hM : (l.dropWhile pyIsSpace).reverse =
        (l.dropWhile pyIsSpace).reverse.takeWhile pyIsSpace
          ++ (l.dropWhile pyIsSpace).reverse.dropWhile pyIsSpace :=
      (List.takeWhile_append_dropWhile
        (p := pyIsSpace) (l := (l.dropWhile pyIsSpace).reverse)).symm
    calc l.dropWhile pyIsSpace
        = (l.dropWhile pyIsSpace).reverse.reverse := (List.reverse_reverse _).symm
      _ = ((l.dropWhile pyIsSpace).reverse.takeWhile pyIsSpace
            ++ (l.dropWhile pyIsSpace).reverse.dropWhile pyIsSpace).reverse := by
            rw [← hM]
      _ = pyStripList l
            ++ ((l.dropWhile pyIsSpace).reverse.takeWhile pyIsSpace).reverse := by
            rw [List.reverse_append]; rfl
  · intro c hc; exact List.mem_takeWhile_imp hc
  · intro c hc
    exact List.mem_takeWhile_imp (List.mem_reverse.1 hc)

theorem map_pyLower_of_space {A : List Char} (h : ∀ c ∈ A, pyIsSpace c = true) :
    A.map pyLower = A := by
  rw [show A = A.map id by simp]
  rw [List.map_map]
  exact List.map_congr_left (fun a ha => by
    simp only [Function.comp, id]
    exact pyLower_of_space (h a (by simpa using ha)))

/-- C5 refinement core: the code's slug value equals the spec's described
transformation (the code's extra `strip()` and `replace("--", "-")` steps
are no-ops). -/
theorem slugOf_eq_specSlugOf (s : String) : slugOf s = specSlugOf s := by
  unfold slugOf specSlugOf slugifyList
  apply congrArg String.mk
  apply congrArg hyphenToUnderscore
  have hno : noHH (stripTrailHyphens (dropLeadHyphens
      (subRuns ((pyStripList s.data).map pyLower) false))) = true := by
    obtain ⟨rest, hr⟩ := stripTrail_pfx (dropLeadHyphens
      (subRuns ((pyStripList s.data).map pyLower) false))
    refine @noHH_append_left _ rest ?_
    rw [← hr]
    exact noHH_dropWhile _ (noHH_subRuns _ _)
  rw [rdh_id hno]
  obtain ⟨A, B, hl, hA, hB⟩ := pyStrip_decomp s.data
  have hmap : s.data.map pyLower
      = A ++ (pyStripList s.data).map pyLower ++ B := by
    conv_lhs => rw [hl]
    simp only [List.map_append]
    rw [map_pyLower_of_space hA, map_pyLower_of_space hB]
  conv_rhs => rw [hmap]
  exact (strip_core _ A B
    (fun c hc => pyIsSpace_not_slug (hA c hc))
    (fun c hc => pyIsSpace_not_slug (hB c hc))).symm

theorem isValidIdent_of_data {s : String} {c : Char} {rest : List Char}
    (hds : s.data = c :: rest) (hc : isIdentStart c = true)
    (hrest : ∀ x ∈ rest, isIdentChar x = true) : isValidIdent s = true := by
  unfold isValidIdent
  rw [hds]
  show (isIdentStart c && rest.all isIdentChar) = true
  rw [hc]
  simpa using hrest

theorem isValidIdent_slugOf_candidate {a : String} {c : Char} {rest : List Char}
    (hds : (slugOf a).data = c :: rest) :
    isValidIdent (if c.isAlpha then slugOf a else "_" ++ slugOf a) = true := by
  have hc : isSlugChar c = true :=
    slugOf_chars (s := a) (by rw [hds]; exact List.mem_cons_self _ _)
  have hrest : ∀ x ∈ rest, isIdentChar x = true := fun x hx =>
    isSlugChar_isIdentChar (slugOf_chars (s := a)
      (by rw [hds]; exact List.mem_cons_of_mem _ hx))
  by_cases ha : c.isAlpha = true
  · rw [if_pos ha]
    have hstart : isIdentStart c = true := by
      simp only [isSlugChar, Bool.or_eq_true, Bool.and_eq_true,
        decide_eq_true_eq] at hc
      rcases hc with (h | h) | h
      · simp only [isIdentStart, Bool.or_eq_true, Bool.and_eq_true,
          decide_eq_true_eq]
        exact Or.inl (Or.inr h)
      · exact absurd ha (by rw [not_alpha_of_digit h.1 h.2]; simp)
      · subst h; exact absurd ha (by decide)
    exact isValidIdent_of_data hds hstart hrest
  · rw [if_neg ha]
    refine @isValidIdent_of_data _ '_' (c :: rest) ?_ rfl ?_
    · rw [String.data_append, show ("_" : String).data = ['_'] from rfl, hds]
      rfl
    · intro x hx
      rcases List.mem_cons.1 hx with h | h
      · subst h; exact isSlugChar_isIdentChar hc
      · exact hrest x h

theorem slugStep_ok {a : String} (h : slugOf a ≠ "") :
    slugStep a = Except.ok (slugOf a) := by
  unfold slugStep
  cases hds : (slugOf a).data with
  | nil => exact absurd (string_eq_iff_data.2 (by simpa using hds)) h
  | cons c rest =>
    have hvalid := isValidIdent_slugOf_candidate hds
    simp only [hds, ensureIdentE, hvalid, if_true]

theorem slugStep_raises {a : String} (h : slugOf a = "") :
    slugStep a = Except.error "IndexError: string index out of range" := by
  unfold slugStep
  have hds : (slugOf a).data = [] := by rw [h]
  simp only [hds]

theorem slug_valid_iff {a : String} (h : slugOf a ≠ "") :
    isValidIdent (slugOf a) = !(firstIsDigit (slugOf a)) := by
  unfold isValidIdent firstIsDigit
  cases hds : (slugOf a).data with
  | nil => exact absurd (string_eq_iff_data.2 (by simpa using hds)) h
  | cons c rest =>
    have hc : isSlugChar c = true :=
      slugOf_chars (s := a) (by rw [hds]; exact List.mem_cons_self _ _)
    have hrest : rest.all isIdentChar = true := by
      refine List.all_eq_true.2 (fun x hx => isSlugChar_isIdentChar
        (slugOf_chars (s := a) (by rw [hds]; exact List.mem_cons_of_mem _ hx)))
    show (isIdentStart c && rest.all isIdentChar) = !(isDigitChar c)
    rw [hrest, isSlugChar_identStart_iff hc, Bool.and_true]

/-! ## Pattern-matcher lemmas -/

theorem dropLit_self_append (p r : List Char) : dropLit p (p ++ r) = some r := by
  induction p with
  | nil => rfl
  | cons c p' ih => simp [dropLit, ih]

theorem dropLit_eq_some {p s r : List Char} (h : dropLit p s = some r) :
    s = p ++ r := by
  induction p generalizing s with
  | nil => simpa [dropLit] using h
  | cons c p' ih =>
    cases s with
    | nil => simp [dropLit] at h
    | cons d s' =>
      simp only [dropLit] at h
      split at h
      · rename_i hdc
        rw [hdc, List.cons_append]
        exact congrArg _ (ih h)
      · exact absurd h (by simp)

theorem identStart_identChar {c : Char} (h : isIdentStart c = true) :
    isIdentChar c = true := by
  simp [isIdentChar, h]

theorem validIdent_chars {f : String} (h : isValidIdent f = true) :
    ∀ c ∈ f.data, isIdentChar c = true := by
  unfold isValidIdent at h
  cases hds : f.data with
  | nil => rw [hds] at h; simp at h
  | cons c rest =>
    rw [hds] at h
    simp only [Bool.and_eq_true, List.all_eq_true] at h
    intro x hx
    rcases List.mem_cons.1 hx with h2 | h2
    · exact h2 ▸ identStart_identChar h.1
    · exact h.2 x h2

theorem validIdent_ne_nil {f : String} (h : isValidIdent f = true) :
    f.data ≠ [] := by
  unfold isValidIdent at h
  intro hd
  rw [hd] at h
  simp at h

theorem identChar_not_space {c : Char} (h : isIdentChar c = true) :
    pyIsSpace c = false := by
  cases hsp : pyIsSpace c with
  | false => rfl
  | true =>
    simp only [pyIsSpace, Bool.or_eq_true, decide_eq_true_eq] at hsp
    rcases hsp with ((((h2 | h2) | h2) | h2) | h2) | h2 <;> subst h2 <;>
      exact absurd h (by decide)

theorem identChar_ne_lparen {c : Char} (h : isIdentChar c = true) : c ≠ '(' := by
  intro he; subst he; exact absurd h (by decide)

theorem string_append_assoc (a b c : String) : a ++ b ++ c = a ++ (b ++ c) := by
  apply string_eq_iff_data.2
  simp [String.data_append, List.append_assoc]

theorem lead_on_header (X : String)
    (hX : ∀ c, X.data.head? = some c → pyIsSpace c = false) :
    matchAsyncDefLead ("async def " ++ X).data = some X.data := by
  have hdata : ("async def " ++ X).data =
      'a' :: 's' :: 'y' :: 'n' :: 'c' :: ' ' :: 'd' :: 'e' :: 'f' :: ' ' :: X.data := by
    rw [String.data_append]; rfl
  rw [hdata]
  simp only [matchAsyncDefLead, dropLit, dropSpaces1,
    show ("async".data) = ['a','s','y','n','c'] from rfl,
    show ("def".data) = ['d','e','f'] from rfl, if_true,
    show pyIsSpace ' ' = true from rfl, show pyIsSpace 'd' = false from rfl]
  cases hXd : X.data with
  | nil => rfl
  | cons c t =>
    rw [List.dropWhile_cons]
    have hc : pyIsSpace c = false := hX c (by rw [hXd]; rfl)
    simp [hc]

theorem blockHeaderLine_decomp (f sig rt : String) :
    blockHeaderLine f sig rt
      = "async def " ++ (f ++ ("(" ++ (sig ++ (") -> " ++ (rt ++ ":"))))) := by
  apply string_eq_iff_data.2
  simp [blockHeaderLine, String.data_append, List.append_assoc]

theorem header_data_after_lead {f : String} (sig rt : String)
    (hf : isValidIdent f = true) :
    matchAsyncDefLead (blockHeaderLine f sig rt).data
      = some (f.data ++ '(' :: (sig ++ (") -> " ++ (rt ++ ":"))).data) := by
  rw [blockHeaderLine_decomp, lead_on_header]
  · exact congrArg some (by rw [String.data_append, String.data_append]; rfl)
  · intro c hc
    cases hfd : f.data with
    | nil => exact absurd hfd (validIdent_ne_nil hf)
    | cons d t =>
      rw [String.data_append, hfd] at hc
      simp only [List.cons_append, List.head?_cons, Option.some_inj] at hc
      rw [← hc]
      exact identChar_not_space (validIdent_chars hf d (by rw [hfd]; simp))

theorem lineDefMatch_self {f : String} (hf : isValidIdent f = true)
    (sig rt : String) : lineDefMatch f (blockHeaderLine f sig rt) = true := by
  unfold lineDefMatch
  rw [header_data_after_lead sig rt hf]
  simp only [Option.some_bind, dropLit_self_append, Option.map_some']
  rw [List.dropWhile_cons]
  simp [show pyIsSpace '(' = false from rfl]

theorem name_pin {g f : String} {tail r2 : List Char}
    (hg : isValidIdent g = true) (hf : isValidIdent f = true)
    (heq : f.data ++ '(' :: tail = g.data ++ r2)
    (hhead : (r2.dropWhile pyIsSpace).head? = some '(') : g = f := by
  rcases List.append_eq_append_iff.1 heq with ⟨a', hga, hba⟩ | ⟨c', hfc, hrc⟩
  · cases a' with
    | nil => exact (string_eq_iff_data.2 (by rw [hga]; simp)).symm
    | cons x a'' =>
      exfalso
      have hx : x = '(' := by
        have h2 : ('(' :: tail) = x :: (a'' ++ r2) := by simpa using hba
        exact (List.cons.injEq _ _ _ _ ▸ h2).1.symm
      have hmem : '(' ∈ g.data := by
        rw [hga, ← hx]
        exact List.mem_append_right _ (List.mem_cons_self _ _)
      exact absurd rfl (identChar_ne_lparen (validIdent_chars hg _ hmem))
  · cases c' with
    | nil => exact (string_eq_iff_data.2 (by rw [hfc]; simp)).symm
    | cons d c'' =>
      exfalso
      have hd : isIdentChar d = true :=
        validIdent_chars hf d (by rw [hfc]; exact List.mem_append_right _ (by simp))
      have hr2 : r2 = d :: (c'' ++ '(' :: tail) := by simpa using hrc
      rw [hr2, List.dropWhile_cons, identChar_not_space hd] at hhead
      simp only [Bool.false_eq_true, if_false, List.head?_cons,
        Option.some_inj] at hhead
      exact (identChar_ne_lparen hd) hhead

theorem lineDefMatch_name {g f : String} (sig rt : String)
    (hg : isValidIdent g = true) (hf : isValidIdent f = true)
    (h : lineDefMatch g (blockHeaderLine f sig rt) = true) : g = f := by
  unfold lineDefMatch at h
  rw [header_data_after_lead sig rt hf] at h
  simp only [Option.some_bind] at h
  cases hdl : dropLit g.data
      (f.data ++ '(' :: (sig ++ (") -> " ++ (rt ++ ":"))).data) with
  | none => rw [hdl] at h; simp at h
  | some r2 =>
    rw [hdl] at h
    simp only [Option.map_some', Option.getD_some, beq_iff_eq] at h
    exact name_pin hg hf (dropLit_eq_some hdl) h

theorem isAsyncDefLine_header {f : String} (hf : isValidIdent f = true)
    (sig rt : String) : isAsyncDefLine (blockHeaderLine f sig rt) = true := by
  unfold isAsyncDefLine
  rw [header_data_after_lead sig rt hf]
  rfl

theorem cleanLine_of_head {l : String}
    (h : ∀ c, l.data.head? = some c → c ≠ 'a') : cleanLine l = true := by
  unfold cleanLine isAsyncDefLine matchAsyncDefLead
  cases hld : l.data with
  | nil => rfl
  | cons c t =>
    have hc := h c (by rw [hld]; rfl)
    simp only [show ("async".data) = ['a','s','y','n','c'] from rfl, dropLit,
      if_neg hc]
    rfl

theorem clean_no_defmatch {g l : String} (h : cleanLine l = true) :
    lineDefMatch g l = false := by
  unfold cleanLine isAsyncDefLine at h
  unfold lineDefMatch
  cases hm : matchAsyncDefLead l.data with
  | none => rfl
  | some r => rw [hm] at h; simp at h

theorem clean_no_removematch {g l : String} (h : cleanLine l = true) :
    lineRemoveStartMatch g l = false := by
  unfold cleanLine isAsyncDefLine at h
  unfold lineRemoveStartMatch
  cases hm : matchAsyncDefLead l.data with
  | none => rfl
  | some r => rw [hm] at h; simp at h

theorem lineRemoveStartMatch_self {f sig rt : String} (hf : isValidIdent f = true)
    (hsig : noRParen sig = true) :
    lineRemoveStartMatch f (blockHeaderLine f sig rt) = true := by
  unfold lineRemoveStartMatch
  rw [header_data_after_lead sig rt hf]
  simp only [Option.some_bind, dropLit_self_append, Option.map_some',
    Option.getD_some]
  rw [List.dropWhile_cons, show pyIsSpace '(' = false from rfl]
  simp only [Bool.false_eq_true, if_false]
  have hR : (sig ++ (") -> " ++ (rt ++ ":"))).data
      = sig.data ++ ')' :: (' ' :: '-' :: '>' :: ' ' :: (rt ++ ":").data) := by
    rw [String.data_append]
    congr 1
  rw [hR]
  rw [List.dropWhile_append_of_pos (by
    intro a ha
    have := List.all_eq_true.1 hsig a ha
    simpa using this)]
  simp [List.dropWhile_cons, pyIsSpace, dropLit]

theorem lineRemoveStartMatch_name {g f : String} (sig rt : String)
    (hg : isValidIdent g = true) (hf : isValidIdent f = true)
    (h : lineRemoveStartMatch g (blockHeaderLine f sig rt) = true) : g = f := by
  unfold lineRemoveStartMatch at h
  rw [header_data_after_lead sig rt hf] at h
  simp only [Option.some_bind] at h
  cases hdl : dropLit g.data
      (f.data ++ '(' :: (sig ++ (") -> " ++ (rt ++ ":"))).data) with
  | none => rw [hdl] at h; simp at h
  | some r2 =>
    rw [hdl] at h
    simp only [Option.map_some', Option.getD_some] at h
    split at h
    · rename_i r3 heq
      exact name_pin hg hf (dropLit_eq_some hdl) (by rw [heq]; rfl)
    · exact absurd h (by simp)

/-! ## Rendered-block structure -/

theorem renderFnBlockLines_eq (spec : ToolSpec) :
    renderFunctionBlockLines spec = (renderGenBlock spec).map GenBlock.lines := by
  unfold renderFunctionBlockLines renderGenBlock
  by_cases hv : isValidIdent spec.function_name = true
  · simp only [hv, if_true]
    cases renderParamSig spec.params with
    | error e => rfl
    | ok sig => rfl
  · simp only [hv, if_false, Bool.false_eq_true]
    rfl

theorem renderParamList_ok {params : List ParamSpec}
    (h : ∀ p ∈ params, isValidIdent p.name = true) :
    renderParamList params = Except.ok (params.map renderOneParam) := by
  induction params with
  | nil => rfl
  | cons p ps ih =>
    simp only [renderParamList, h p (List.mem_cons_self _ _), if_true,
      ih (fun q hq => h q (List.mem_cons_of_mem _ hq)), List.map_cons]

theorem noRParen_append (a b : String) :
    noRParen (a ++ b) = (noRParen a && noRParen b) := by
  unfold noRParen
  rw [String.data_append, List.all_append]

theorem noRParen_pyJoin {sep : String} {l : List String}
    (hsep : noRParen sep = true) (h : ∀ x ∈ l, noRParen x = true) :
    noRParen (pyJoin sep l) = true := by
  induction l with
  | nil => rfl
  | cons x xs ih =>
    cases xs with
    | nil => exact h x (List.mem_cons_self _ _)
    | cons y ys =>
      show noRParen (x ++ sep ++ pyJoin sep (y :: ys)) = true
      rw [noRParen_append, noRParen_append]
      rw [h x (List.mem_cons_self _ _), hsep,
        ih (fun z hz => h z (List.mem_cons_of_mem _ hz))]
      rfl

theorem identChar_ne_rparen {c : Char} (h : isIdentChar c = true) : c ≠ ')' := by
  intro he; subst he; exact absurd h (by decide)

theorem noRParen_of_validIdent {s : String} (h : isValidIdent s = true) :
    noRParen s = true := by
  unfold noRParen
  exact List.all_eq_true.2 (fun c hc => by
    simpa using identChar_ne_rparen (validIdent_chars h c hc))

theorem wfSpec_fields {spec : ToolSpec} (hw : wfSpec spec = true) :
    validSpecNames spec = true
    ∧ ∀ p ∈ spec.params,
        noRParen (p.ptype.getD "Any") = true
        ∧ (∀ v, p.default = some v → noRParen (pyRepr v) = true) := by
  unfold wfSpec at hw
  simp only [Bool.and_eq_true, List.all_eq_true] at hw
  refine ⟨hw.1.1.1, fun p hp => ?_⟩
  have h2 := hw.2 p hp
  simp only [Bool.and_eq_true] at h2
  refine ⟨h2.1.1.2, fun v hv => ?_⟩
  have h3 := h2.2
  rw [hv] at h3
  simp only [Bool.and_eq_true] at h3
  exact h3.2

theorem noRParen_renderOneParam {p : ParamSpec}
    (hname : isValidIdent p.name = true)
    (htype : noRParen (p.ptype.getD "Any") = true)
    (hdef : ∀ v, p.default = some v → noRParen (pyRepr v) = true) :
    noRParen (renderOneParam p) = true := by
  unfold renderOneParam
  cases hd : p.default with
  | none =>
    rw [noRParen_append, noRParen_append, noRParen_of_validIdent hname, htype]
    rfl
  | some v =>
    rw [noRParen_append, noRParen_append, noRParen_append, noRParen_append,
      noRParen_of_validIdent hname, htype, hdef v hd]
    rfl

theorem noRParen_sig {spec : ToolSpec} (hw : wfSpec spec = true) {sig : String}
    (hsig : renderParamSig spec.params = Except.ok sig) : noRParen sig = true := by
  obtain ⟨hnames, hfields⟩ := wfSpec_fields hw
  unfold validSpecNames at hnames
  simp only [Bool.and_eq_true, List.all_eq_true] at hnames
  unfold renderParamSig at hsig
  rw [renderParamList_ok (fun p hp => hnames.2 p hp)] at hsig
  have hsig2 : sig = pyJoin ", " (spec.params.map renderOneParam
      ++ fixedTrailingParams) := by
    simpa using hsig.symm
  rw [hsig2]
  refine noRParen_pyJoin (by decide) (fun x hx => ?_)
  rcases List.mem_append.1 hx with h2 | h2
  · obtain ⟨p, hp, he⟩ := List.mem_map.1 h2
    rw [← he]
    exact noRParen_renderOneParam (hnames.2 p hp) (hfields p hp).1 (hfields p hp).2
  · have h2' : x = "tool_context=None"
        ∨ x = "tool_config: Optional[Dict[str, Any]] = None" := by
      simpa [fixedTrailingParams] using h2
    rcases h2' with h3 | h3 <;> (rw [h3]; rfl)

theorem cleanLine_indent (x : String) : cleanLine ("    " ++ x) = true := by
  refine cleanLine_of_head (fun c hc => ?_)
  rw [String.data_append] at hc
  simp only [show ("    " : String).data = [' ',' ',' ',' '] from rfl,
    List.cons_append, List.head?_cons, Option.some_inj] at hc
  rw [← hc]; decide

theorem pyStripList_nil {d : List Char} (h : pyStripList d = []) :
    ∀ c ∈ d, pyIsSpace c = true := by
  unfold pyStripList at h
  have h1 : (d.dropWhile pyIsSpace).reverse.dropWhile pyIsSpace = [] := by
    rwa [List.reverse_eq_nil_iff] at h
  have h3 : ∀ x ∈ d.dropWhile pyIsSpace, pyIsSpace x = true := fun x hx =>
    List.dropWhile_eq_nil_iff.1 h1 x (List.mem_reverse.2 hx)
  intro c hc
  rw [← List.takeWhile_append_dropWhile (p := pyIsSpace) (l := d)] at hc
  rcases List.mem_append.1 hc with h4 | h4
  · exact List.mem_takeWhile_imp h4
  · exact h3 c h4

theorem cleanLine_indentBodyLine (l : String) :
    cleanLine (indentBodyLine l) = true := by
  unfold indentBodyLine
  split
  · rename_i hstrip
    refine cleanLine_of_head (fun c hc => ?_)
    have hnil : pyStripList l.data = [] := string_eq_iff_data.1 hstrip
    have hcm : c ∈ l.data := by
      cases hld : l.data with
      | nil => rw [hld] at hc; simp at hc
      | cons d t =>
        rw [hld] at hc
        simp only [List.head?_cons, Option.some_inj] at hc
        exact List.mem_cons.2 (Or.inl hc.symm)
    have hsp := pyStripList_nil hnil c hcm
    intro he
    rw [he] at hsp
    exact absurd hsp (by decide)
  · exact cleanLine_indent l

theorem clean_defaultBodyLines (rt : Option String) :
    ∀ l ∈ defaultBodyLines rt, cleanLine l = true := by
  unfold defaultBodyLines
  intro l hl
  cases rt with
  | none =>
    simp only [List.mem_singleton] at hl
    rw [hl]; decide
  | some t =>
    dsimp only at hl
    split_ifs at hl
    · rcases List.mem_cons.1 hl with h2 | h2
      · rw [h2]; decide
      · simp only [List.mem_singleton] at h2; rw [h2]; decide
    · simp only [List.mem_singleton] at hl; rw [hl]; decide

theorem clean_bodyTailLines (spec : ToolSpec) :
    ∀ l ∈ bodyTailLines spec, cleanLine l = true := by
  unfold bodyTailLines
  intro l hl
  have hblank : ∀ x ∈ (["", ""] : List String), cleanLine x = true := by decide
  have hblank1 : ∀ x ∈ ([""] : List String), cleanLine x = true := by decide
  cases hb : spec.body with
  | none =>
    rw [hb] at hl
    dsimp only at hl
    rcases List.mem_append.1 hl with h2 | h2
    · exact clean_defaultBodyLines _ l h2
    · exact hblank l h2
  | some b =>
    rw [hb] at hl
    dsimp only at hl
    by_cases hbe : b = ""
    · rw [if_pos hbe] at hl
      rcases List.mem_append.1 hl with h2 | h2
      · exact clean_defaultBodyLines _ l h2
      · exact hblank l h2
    · rw [if_neg hbe] at hl
      rcases List.mem_append.1 hl with h2 | h2
      · obtain ⟨x, _, he⟩ := List.mem_map.1 h2
        rw [← he]
        exact cleanLine_indentBodyLine x
      · by_cases hnl : b.endsWith "\n" = true
        · rw [if_pos hnl] at h2
          exact hblank1 l h2
        · rw [if_neg hnl] at h2
          exact hblank l h2

theorem clean_docLines (desc : String) (params : List ParamSpec)
    (returns : Option ReturnsSpec) :
    ∀ l ∈ docLines desc params returns, cleanLine l = true := by
  intro l hl
  obtain ⟨x, _, he⟩ := List.mem_map.1 hl
  rw [← he]
  exact cleanLine_indent x

theorem clean_logLine (f : String) : cleanLine (logLineOf f) = true := by
  have he : logLineOf f = "    " ++ ("log.info(\"[" ++ (f ++ "] called\")")) := by
    apply string_eq_iff_data.2
    simp [String.data_append, logLineOf]
  rw [he]
  exact cleanLine_indent _

theorem renderGenBlock_ok {spec : ToolSpec} (hw : wfSpec spec = true) :
    ∃ b, renderGenBlock spec = Except.ok b ∧ b.name = spec.function_name
      ∧ GenBlockOK b := by
  obtain ⟨hnames, _⟩ := wfSpec_fields hw
  have hnames2 := hnames
  unfold validSpecNames at hnames2
  simp only [Bool.and_eq_true, List.all_eq_true] at hnames2
  have hps : renderParamSig spec.params
      = Except.ok (pyJoin ", " (spec.params.map renderOneParam
          ++ fixedTrailingParams)) := by
    unfold renderParamSig
    rw [renderParamList_ok (fun p hp => hnames2.2 p hp)]
  refine ⟨⟨spec.function_name,
      pyJoin ", " (spec.params.map renderOneParam ++ fixedTrailingParams),
      rtypeOf spec,
      docLines (spec.description.getD "No description provided.")
        spec.params spec.returns
      ++ [logLineOf spec.function_name] ++ bodyTailLines spec⟩, ?_, rfl, ?_⟩
  · unfold renderGenBlock
    simp only [hnames2.1, if_true, hps]
  · refine ⟨hnames2.1, noRParen_sig hw hps, fun l hl => ?_⟩
    rcases List.mem_append.1 hl with h2 | h2
    · rcases List.mem_append.1 h2 with h3 | h3
      · exact clean_docLines _ _ _ l h3
      · simp only [List.mem_singleton] at h3
        rw [h3]
        exact clean_logLine _
    · exact clean_bodyTailLines spec l h2

/-! ## `_function_exists`, `countDefs` and the overwrite removal on
structured texts -/

theorem blockOK_any_defmatch {b : GenBlock} {g : String}
    (hg : isValidIdent g = true) (hb : GenBlockOK b) :
    (GenBlock.lines b).any (lineDefMatch g) = (b.name == g) := by
  obtain ⟨hbn, _, htail⟩ := hb
  unfold GenBlock.lines
  rw [List.any_cons]
  have ht : b.tailLines.any (lineDefMatch g) = false := by
    rw [List.any_eq_false]
    exact fun l hl => by simp [clean_no_defmatch (g := g) (htail l hl)]
  rw [ht, Bool.or_false]
  by_cases hbg : b.name = g
  · rw [← hbg]
    rw [lineDefMatch_self hbn]
    simp
  · have h2 : lineDefMatch g (blockHeaderLine b.name b.sig b.rt) = false := by
      cases hlm : lineDefMatch g (blockHeaderLine b.name b.sig b.rt) with
      | false => rfl
      | true => exact absurd (lineDefMatch_name b.sig b.rt hg hbn hlm).symm hbg
    rw [h2]
    exact (beq_eq_false_iff_ne.2 hbg).symm

theorem any_defmatch_flatten {g : String} (hg : isValidIdent g = true) :
    ∀ (blocks : List GenBlock), (∀ b ∈ blocks, GenBlockOK b) →
    ((blocks.map GenBlock.lines).flatten).any (lineDefMatch g)
      = blocks.any (fun b => b.name == g) := by
  intro blocks
  induction blocks with
  | nil => intro _; rfl
  | cons b bs ih =>
    intro hOK
    simp only [List.map_cons, List.flatten_cons, List.any_append, List.any_cons]
    rw [blockOK_any_defmatch hg (hOK b (List.mem_cons_self _ _)),
      ih (fun x hx => hOK x (List.mem_cons_of_mem _ hx))]

theorem functionExists_invtext {hdr : List String} {blocks : List GenBlock}
    {g : String} (hg : isValidIdent g = true)
    (hhdr : ∀ l ∈ hdr, cleanLine l = true)
    (hblocks : ∀ b ∈ blocks, GenBlockOK b) :
    functionExists (hdr ++ (blocks.map GenBlock.lines).flatten) g
      = blocks.any (fun b => b.name == g) := by
  unfold functionExists
  rw [List.any_append]
  have h1 : hdr.any (lineDefMatch g) = false := by
    rw [List.any_eq_false]
    exact fun l hl => by simp [clean_no_defmatch (g := g) (hhdr l hl)]
  rw [h1, Bool.false_or]
  exact any_defmatch_flatten hg blocks hblocks

theorem countDefs_block {b : GenBlock} {g : String}
    (hg : isValidIdent g = true) (hb : GenBlockOK b) :
    ((GenBlock.lines b).filter (lineDefMatch g)).length
      = if b.name == g then 1 else 0 := by
  obtain ⟨hbn, _, htail⟩ := hb
  unfold GenBlock.lines
  rw [List.filter_cons]
  have ht : b.tailLines.filter (lineDefMatch g) = [] := by
    rw [List.filter_eq_nil_iff]
    exact fun l hl => by simp [clean_no_defmatch (g := g) (htail l hl)]
  by_cases hbg : b.name = g
  · rw [← hbg]
    rw [lineDefMatch_self hbn]
    simp [ht, hbg]
  · have h2 : lineDefMatch g (blockHeaderLine b.name b.sig b.rt) = false := by
      cases hlm : lineDefMatch g (blockHeaderLine b.name b.sig b.rt) with
      | false => rfl
      | true => exact absurd (lineDefMatch_name b.sig b.rt hg hbn hlm).symm hbg
    rw [h2]
    simp [ht, hbg]

theorem countDefs_flatten {g : String} (hg : isValidIdent g = true) :
    ∀ (blocks : List GenBlock), (∀ b ∈ blocks, GenBlockOK b) →
    (((blocks.map GenBlock.lines).flatten).filter (lineDefMatch g)).length
      = (blocks.filter (fun b => b.name == g)).length := by
  intro blocks
  induction blocks with
  | nil => intro _; rfl
  | cons b bs ih =>
    intro hOK
    simp only [List.map_cons, List.flatten_cons, List.filter_append,
      List.length_append]
    rw [countDefs_block hg (hOK b (List.mem_cons_self _ _)),
      ih (fun x hx => hOK x (List.mem_cons_of_mem _ hx)), List.filter_cons]
    by_cases hbg : (b.name == g) = true
    · rw [if_pos hbg, if_pos hbg]
      simp [Nat.add_comm]
    · rw [if_neg hbg, if_neg hbg]
      simp

theorem countDefs_invtext {hdr : List String} {blocks : List GenBlock}
    {g : String} (hg : isValidIdent g = true)
    (hhdr : ∀ l ∈ hdr, cleanLine l = true)
    (hblocks : ∀ b ∈ blocks, GenBlockOK b) :
    countDefs (hdr ++ (blocks.map GenBlock.lines).flatten) g
      = (blocks.filter (fun b => b.name == g)).length := by
  unfold countDefs
  rw [List.filter_append, List.length_append]
  have h1 : hdr.filter (lineDefMatch g) = [] := by
    rw [List.filter_eq_nil_iff]
    exact fun l hl => by simp [clean_no_defmatch (g := g) (hhdr l hl)]
  rw [h1]
  simp only [List.length_nil, Nat.zero_add]
  exact countDefs_flatten hg blocks hblocks

theorem removeFBGo_true (g : String) :
    ∀ rest : List String, removeFBGo g rest true
      = removeFBGo g (rest.dropWhile (fun x => !(isAsyncDefLine x))) false := by
  intro rest
  induction rest with
  | nil => rfl
  | cons l rest ih =>
    rw [List.dropWhile_cons]
    by_cases ha : isAsyncDefLine l = true
    · rw [if_neg (by simp [ha])]
      show removeFBGo g (l :: rest) true = removeFBGo g (l :: rest) false
      unfold removeFBGo
      rw [ha]
      simp
    · have ha' : isAsyncDefLine l = false := by simpa using ha
      rw [if_pos (by simp [ha'])]
      conv_lhs => rw [removeFBGo]
      rw [ha']
      simp only [Bool.not_false, Bool.and_true, if_true]
      exact ih

theorem removeFunctionBlock_nil (g : String) : removeFunctionBlock g [] = [] := by
  rfl

theorem removeFunctionBlock_cons (g l : String) (rest : List String) :
    removeFunctionBlock g (l :: rest)
      = if lineRemoveStartMatch g l = true then
          removeFunctionBlock g (rest.dropWhile (fun x => !(isAsyncDefLine x)))
        else l :: removeFunctionBlock g rest := by
  show removeFBGo g (l :: rest) false = _
  unfold removeFBGo
  simp only [Bool.false_and, Bool.false_eq_true, if_false]
  by_cases hm : lineRemoveStartMatch g l = true
  · rw [if_pos hm, if_pos hm, removeFBGo_true]
    rfl
  · rw [if_neg hm, if_neg hm]
    rfl

theorem remove_nomatch_lead {g : String} {xs ys : List String}
    (h : ∀ l ∈ xs, lineRemoveStartMatch g l = false) :
    removeFunctionBlock g (xs ++ ys) = xs ++ removeFunctionBlock g ys := by
  induction xs with
  | nil => rfl
  | cons l xs' ih =>
    rw [List.cons_append, removeFunctionBlock_cons,
      if_neg (by rw [h l (List.mem_cons_self _ _)]; simp),
      ih (fun x hx => h x (List.mem_cons_of_mem _ hx))]
    rfl

theorem dropWhile_flatten_blocks (blocks : List GenBlock)
    (hOK : ∀ b ∈ blocks, GenBlockOK b) :
    ((blocks.map GenBlock.lines).flatten).dropWhile (fun x => !(isAsyncDefLine x))
      = (blocks.map GenBlock.lines).flatten := by
  cases blocks with
  | nil => rfl
  | cons b bs =>
    obtain ⟨hbn, _, _⟩ := hOK b (List.mem_cons_self _ _)
    simp only [List.map_cons, List.flatten_cons]
    unfold GenBlock.lines
    rw [List.cons_append, List.dropWhile_cons,
      isAsyncDefLine_header hbn b.sig b.rt]
    simp

theorem remove_flatten {g : String} (hg : isValidIdent g = true) :
    ∀ (blocks : List GenBlock), (∀ b ∈ blocks, GenBlockOK b) →
    removeFunctionBlock g ((blocks.map GenBlock.lines).flatten)
      = (((blocks.filter (fun b => b.name != g)).map GenBlock.lines)).flatten := by
  intro blocks
  induction blocks with
  | nil => intro _; exact removeFunctionBlock_nil g
  | cons b bs ih =>
    intro hOK
    obtain ⟨hbn, hbsig, hbtail⟩ := hOK b (List.mem_cons_self _ _)
    have hOKbs : ∀ x ∈ bs, GenBlockOK x := fun x hx => hOK x (List.mem_cons_of_mem _ hx)
    simp only [List.map_cons, List.flatten_cons]
    by_cases hbg : b.name = g
    · -- this block is removed
      have hmatch : lineRemoveStartMatch g
          (blockHeaderLine b.name b.sig b.rt) = true := by
        rw [← hbg]
        exact lineRemoveStartMatch_self hbn hbsig
      rw [show GenBlock.lines b
          = blockHeaderLine b.name b.sig b.rt :: b.tailLines from rfl]
      rw [List.cons_append, removeFunctionBlock_cons, if_pos hmatch]
      rw [List.dropWhile_append_of_pos (by
        intro a ha
        have := hbtail a ha
        unfold cleanLine at this
        simpa using this)]
      rw [dropWhile_flatten_blocks bs hOKbs]
      rw [ih hOKbs]
      rw [List.filter_cons, if_neg (by simp [hbg])]
    · -- this block is kept
      have hnm : ∀ l ∈ GenBlock.lines b, lineRemoveStartMatch g l = false := by
        intro l hl
        unfold GenBlock.lines at hl
        rcases List.mem_cons.1 hl with h2 | h2
        · rw [h2]
          cases hlm : lineRemoveStartMatch g (blockHeaderLine b.name b.sig b.rt) with
          | false => rfl
          | true =>
            exact absurd (lineRemoveStartMatch_name b.sig b.rt hg hbn hlm).symm hbg
        · exact clean_no_removematch (hbtail l h2)
      rw [remove_nomatch_lead hnm, ih hOKbs]
      rw [List.filter_cons, if_pos (by simp [hbg])]
      simp

theorem wfSpec_valid_fname {spec : ToolSpec} (hw : wfSpec spec = true) :
    isValidIdent spec.function_name = true := by
  have h := (wfSpec_fields hw).1
  unfold validSpecNames at h
  simp only [Bool.and_eq_true] at h
  exact h.1

theorem names_nodup_filter_append {blocks : List GenBlock} {nb : GenBlock}
    (hnd : (blocks.map GenBlock.name).Nodup) (f : String) (hnb : nb.name = f) :
    (((blocks.filter (fun b => b.name != f)) ++ [nb]).map GenBlock.name).Nodup := by
  rw [List.map_append]
  rw [List.nodup_append]
  refine ⟨?_, by simp, ?_⟩
  · exact hnd.sublist ((List.filter_sublist _).map GenBlock.name)
  · intro a ha hb
    simp only [List.map_cons, List.map_nil, List.mem_singleton] at hb
    obtain ⟨b, hbmem, hbe⟩ := List.mem_map.1 ha
    have := List.of_mem_filter hbmem
    rw [hbe, hb, hnb] at this
    simp at this

theorem names_nodup_append_new {blocks : List GenBlock} {nb : GenBlock}
    (hnd : (blocks.map GenBlock.name).Nodup)
    (hnew : blocks.any (fun b => b.name == nb.name) = false) :
    ((blocks ++ [nb]).map GenBlock.name).Nodup := by
  rw [List.map_append, List.nodup_append]
  refine ⟨hnd, by simp, ?_⟩
  intro a ha hb
  simp only [List.map_cons, List.map_nil, List.mem_singleton] at hb
  obtain ⟨b, hbmem, hbe⟩ := List.mem_map.1 ha
  rw [List.any_eq_false] at hnew
  have := hnew b hbmem
  rw [hbe, hb] at this
  simp at this

theorem processSpecs_cons_valid {ow : Bool} {spec : ToolSpec} {rest : List ToolSpec}
    {text created skipped : List String}
    (hv : isValidIdent spec.function_name = true) :
    processSpecs ow (spec :: rest) text created skipped
      = (if functionExists text spec.function_name && !ow then
          processSpecs ow rest text created (skipped ++ [spec.function_name])
        else
          match renderFunctionBlockLines spec with
          | Except.error e => Except.error e
          | Except.ok bl =>
            processSpecs ow rest
              ((if functionExists text spec.function_name && ow then
                  removeFunctionBlock spec.function_name text else text) ++ bl)
              (created ++ [spec.function_name]) skipped) := by
  simp only [processSpecs, hv, if_true]

theorem processSpecs_sim {overwrite : Bool} :
    ∀ (specs : List ToolSpec) (hdr : List String) (blocks : List GenBlock)
      (created skipped : List String),
    (∀ l ∈ hdr, cleanLine l = true) → (∀ b ∈ blocks, GenBlockOK b) →
    (blocks.map GenBlock.name).Nodup → (∀ s ∈ specs, wfSpec s = true) →
    ∃ created2 skipped2,
      processSpecs overwrite specs (hdr ++ (blocks.map GenBlock.lines).flatten)
        created skipped
        = Except.ok (hdr ++ ((absProcess overwrite blocks specs).map
            GenBlock.lines).flatten, created2, skipped2)
      ∧ (∀ b ∈ absProcess overwrite blocks specs, GenBlockOK b)
      ∧ ((absProcess overwrite blocks specs).map GenBlock.name).Nodup := by
  intro specs
  induction specs with
  | nil =>
    intro hdr blocks c k hhdr hOK hnd _
    exact ⟨c, k, rfl, hOK, hnd⟩
  | cons spec rest ih =>
    intro hdr blocks c k hhdr hOK hnd hwf
    have hw := hwf spec (List.mem_cons_self _ _)
    have hwrest : ∀ s ∈ rest, wfSpec s = true := fun s hs =>
      hwf s (List.mem_cons_of_mem _ hs)
    obtain ⟨nb, hrender, hname, hnbOK⟩ := renderGenBlock_ok hw
    have hv := wfSpec_valid_fname hw
    have hex := @functionExists_invtext hdr blocks _ hv hhdr hOK
    have hrfl : renderFunctionBlockLines spec = Except.ok (GenBlock.lines nb) := by
      rw [renderFnBlockLines_eq, hrender]
      rfl
    have habs : absProcess overwrite blocks (spec :: rest)
        = absProcess overwrite (absStep overwrite blocks spec) rest := rfl
    rw [processSpecs_cons_valid hv, hex, hrfl, habs]
    by_cases hexb : blocks.any (fun b => b.name == spec.function_name) = true
    · cases overwrite with
      | false =>
        have hstep : absStep false blocks spec = blocks := by
          simp [absStep, hv, hrender, hexb]
        rw [hexb, hstep]
        simp only [Bool.not_false, Bool.and_true, if_true]
        exact ih hdr blocks c (k ++ [spec.function_name]) hhdr hOK hnd hwrest
      | true =>
        have hstep : absStep true blocks spec
            = blocks.filter (fun b => b.name != spec.function_name) ++ [nb] := by
          simp [absStep, hv, hrender, hexb]
        rw [hexb, hstep]
        simp only [Bool.not_true, Bool.and_false, if_false, Bool.and_true,
          if_true, Bool.false_eq_true]
        have hremove : removeFunctionBlock spec.function_name
            (hdr ++ (blocks.map GenBlock.lines).flatten)
            = hdr ++ (((blocks.filter (fun b => b.name != spec.function_name)).map
                GenBlock.lines)).flatten := by
          rw [remove_nomatch_lead (fun l hl => clean_no_removematch (hhdr l hl)),
            remove_flatten hv blocks hOK]
        rw [hremove]
        have htext : hdr ++ (((blocks.filter
              (fun b => b.name != spec.function_name)).map GenBlock.lines)).flatten
              ++ GenBlock.lines nb
            = hdr ++ (((blocks.filter (fun b => b.name != spec.function_name)
                ++ [nb]).map GenBlock.lines)).flatten := by
          simp [List.map_append, List.flatten_append, List.append_assoc]
        rw [htext]
        have hOK2 : ∀ b ∈ blocks.filter
            (fun b => b.name != spec.function_name) ++ [nb], GenBlockOK b := by
          intro b hb
          rcases List.mem_append.1 hb with h2 | h2
          · exact hOK b (List.mem_of_mem_filter h2)
          · simp only [List.mem_singleton] at h2
            rw [h2]
            exact hnbOK
        have hnd2 := names_nodup_filter_append hnd spec.function_name hname
        exact ih hdr _ (c ++ [spec.function_name]) k hhdr hOK2 hnd2 hwrest
    · have hexb' : blocks.any (fun b => b.name == spec.function_name) = false := by
        simpa using hexb
      have hstep : absStep overwrite blocks spec = blocks ++ [nb] := by
        simp [absStep, hv, hrender, hexb']
      rw [hexb', hstep]
      simp only [Bool.false_and, if_false, Bool.false_eq_true]
      have htext : hdr ++ ((blocks.map GenBlock.lines)).flatten ++ GenBlock.lines nb
          = hdr ++ (((blocks ++ [nb]).map GenBlock.lines)).flatten := by
        simp [List.map_append, List.flatten_append, List.append_assoc]
      rw [htext]
      have hOK2 : ∀ b ∈ blocks ++ [nb], GenBlockOK b := by
        intro b hb
        rcases List.mem_append.1 hb with h2 | h2
        · exact hOK b h2
        · simp only [List.mem_singleton] at h2
          rw [h2]
          exact hnbOK
      have hnd2 := names_nodup_append_new hnd (by rw [hname]; exact hexb')
      exact ih hdr _ (c ++ [spec.function_name]) k hhdr hOK2 hnd2 hwrest

/-! ## `define_dynamic_tools`: structured runs -/

theorem clean_renderHeaderLines (agent : String) :
    ∀ l ∈ renderHeaderLines agent, cleanLine l = true := by
  intro l hl
  unfold renderHeaderLines at hl
  simp only [List.mem_cons, List.mem_singleton, List.not_mem_nil, or_false] at hl
  rcases hl with h | h | h | h | h
  · rw [h]
    refine cleanLine_of_head (fun c hc => ?_)
    rw [String.data_append] at hc
    have h2 : (("# Auto-generated tool stubs for" : String).data
        ++ (' ' :: agent.data)).head? = some '#' := rfl
    have h3 : c = '#' := by
      rw [show ("# Auto-generated tool stubs for " : String).data ++ agent.data
          = ("# Auto-generated tool stubs for" : String).data
            ++ (' ' :: agent.data) from by simp] at hc
      rw [h2] at hc
      exact (Option.some_inj.1 hc).symm
    rw [h3]
    decide
  · rw [h]; decide
  · rw [h]; decide
  · rw [h]; decide
  · rw [h]; decide

theorem renderGenBlock_fields {spec : ToolSpec} {nb : GenBlock}
    (h : renderGenBlock spec = Except.ok nb) :
    nb.name = spec.function_name ∧ renderParamSig spec.params = Except.ok nb.sig
      ∧ nb.rt = rtypeOf spec := by
  unfold renderGenBlock at h
  by_cases hv : isValidIdent spec.function_name = true
  · rw [if_pos hv] at h
    cases hps : renderParamSig spec.params with
    | error e => rw [hps] at h; exact absurd h (by simp)
    | ok sig =>
      rw [hps] at h
      simp only [Except.ok.injEq] at h
      subst h
      exact ⟨rfl, rfl, rfl⟩
  · rw [if_neg hv] at h
    exact absurd h (by simp)

theorem functionExists_append_left {text : List String} {f : String}
    (h : functionExists text f = true) (extra : List String) :
    functionExists (text ++ extra) f = true := by
  unfold functionExists at h ⊢
  rw [List.any_append, h, Bool.true_or]

theorem functionExists_append_block (text : List String) {nb : GenBlock}
    (hv : isValidIdent nb.name = true) :
    functionExists (text ++ GenBlock.lines nb) nb.name = true := by
  unfold functionExists GenBlock.lines
  rw [List.any_append, List.any_cons, lineDefMatch_self hv]
  simp

theorem absStep_presence {ow : Bool} {blocks : List GenBlock} {spec : ToolSpec}
    {g : String} (h : blocks.any (fun b => b.name == g) = true) :
    (absStep ow blocks spec).any (fun b => b.name == g) = true := by
  by_cases hv : isValidIdent spec.function_name = true
  · cases hrg : renderGenBlock spec with
    | error e =>
      have hstep : absStep ow blocks spec = blocks := by simp [absStep, hv, hrg]
      rw [hstep]; exact h
    | ok nb =>
      have hname := (renderGenBlock_fields hrg).1
      by_cases hex : blocks.any (fun b => b.name == spec.function_name) = true
      · cases ow with
        | false =>
          have hstep : absStep false blocks spec = blocks := by
            simp [absStep, hv, hrg, hex]
          rw [hstep]; exact h
        | true =>
          have hstep : absStep true blocks spec
              = blocks.filter (fun b => b.name != spec.function_name) ++ [nb] := by
            simp [absStep, hv, hrg, hex]
          rw [hstep, List.any_append, Bool.or_eq_true]
          by_cases hgf : g = spec.function_name
          · refine Or.inr ?_
            simp [hname, hgf]
          · refine Or.inl ?_
            obtain ⟨b, hb, hbg⟩ := List.any_eq_true.1 h
            refine List.any_eq_true.2 ⟨b, List.mem_filter.2 ⟨hb, ?_⟩, hbg⟩
            have hbn : b.name = g := by simpa using hbg
            simp [hbn, hgf]
      · have hex' : blocks.any (fun b => b.name == spec.function_name) = false := by
          simpa using hex
        have hstep : absStep ow blocks spec = blocks ++ [nb] := by
          simp [absStep, hv, hrg, hex']
        rw [hstep, List.any_append, Bool.or_eq_true]
        exact Or.inl h
  · have hstep : absStep ow blocks spec = blocks := by simp [absStep, hv]
    rw [hstep]; exact h

theorem absProcess_presence {ow : Bool} {g : String} :
    ∀ (specs : List ToolSpec) (blocks : List GenBlock),
    blocks.any (fun b => b.name == g) = true →
    (absProcess ow blocks specs).any (fun b => b.name == g) = true := by
  intro specs
  induction specs with
  | nil => intro blocks h; exact h
  | cons s rest ih =>
    intro blocks h
    show (absProcess ow (absStep ow blocks s) rest).any (fun b => b.name == g) = true
    exact ih _ (absStep_presence h)

theorem absProcess_self_present {ow : Bool} :
    ∀ (specs : List ToolSpec) (blocks : List GenBlock) (s : ToolSpec),
    s ∈ specs → wfSpec s = true →
    (absProcess ow blocks specs).any (fun b => b.name == s.function_name) = true := by
  intro specs
  induction specs with
  | nil => intro blocks s h; exact absurd h (List.not_mem_nil _)
  | cons t rest ih =>
    intro blocks s hmem hw
    rcases List.mem_cons.1 hmem with he | hm
    · subst he
      have hv := wfSpec_valid_fname hw
      obtain ⟨nb, hrg, hname, _⟩ := renderGenBlock_ok hw
      have h1 : (absStep ow blocks s).any (fun b => b.name == s.function_name) = true := by
        by_cases hex : blocks.any (fun b => b.name == s.function_name) = true
        · cases ow with
          | false =>
            have hstep : absStep false blocks s = blocks := by
              simp [absStep, hv, hrg, hex]
            rw [hstep]; exact hex
          | true =>
            have hstep : absStep true blocks s
                = blocks.filter (fun b => b.name != s.function_name) ++ [nb] := by
              simp [absStep, hv, hrg, hex]
            rw [hstep, List.any_append, Bool.or_eq_true]
            refine Or.inr ?_
            simp [hname]
        · have hex' : blocks.any (fun b => b.name == s.function_name) = false := by
            simpa using hex
          have hstep : absStep ow blocks s = blocks ++ [nb] := by
            simp [absStep, hv, hrg, hex']
          rw [hstep, List.any_append, Bool.or_eq_true]
          refine Or.inr ?_
          simp [hname]
      show (absProcess ow (absStep ow blocks s) rest).any
          (fun b => b.name == s.function_name) = true
      exact absProcess_presence rest _ h1
    · show (absProcess ow (absStep ow blocks t) rest).any
          (fun b => b.name == s.function_name) = true
      exact ih _ s hm hw

theorem absStep_skip {blocks : List GenBlock} {s : ToolSpec}
    (hex : blocks.any (fun b => b.name == s.function_name) = true) :
    absStep false blocks s = blocks := by
  by_cases hv : isValidIdent s.function_name = true
  · cases hrg : renderGenBlock s with
    | error e => simp [absStep, hv, hrg]
    | ok nb => simp [absStep, hv, hrg, hex]
  · simp [absStep, hv]

theorem absProcess_allskip :
    ∀ (specs : List ToolSpec) (blocks : List GenBlock),
    (∀ s ∈ specs, blocks.any (fun b => b.name == s.function_name) = true) →
    absProcess false blocks specs = blocks := by
  intro specs
  induction specs with
  | nil => intro blocks _; rfl
  | cons s rest ih =>
    intro blocks h
    have hstep : absStep false blocks s = blocks :=
      absStep_skip (h s (List.mem_cons_self _ _))
    show absProcess false (absStep false blocks s) rest = blocks
    rw [hstep]
    exact ih blocks (fun t ht => h t (List.mem_cons_of_mem _ ht))

theorem processSpecs_allskip :
    ∀ (specs : List ToolSpec) (text created skipped : List String),
    (∀ s ∈ specs, isValidIdent s.function_name = true
      ∧ functionExists text s.function_name = true) →
    processSpecs false specs text created skipped
      = Except.ok (text, created, skipped ++ specs.map ToolSpec.function_name) := by
  intro specs
  induction specs with
  | nil => intro text c k _; simp [processSpecs]
  | cons s rest ih =>
    intro text c k h
    obtain ⟨hv, hex⟩ := h s (List.mem_cons_self _ _)
    rw [processSpecs_cons_valid hv, hex]
    simp only [Bool.not_false, Bool.and_true, if_true]
    rw [ih text c (k ++ [s.function_name])
      (fun t ht => h t (List.mem_cons_of_mem _ ht))]
    simp [List.append_assoc]

theorem processSpecs_false_grow :
    ∀ (specs : List ToolSpec) (text created skipped : List String),
    (∀ s ∈ specs, wfSpec s = true) →
    ∃ extra created2 skipped2,
      processSpecs false specs text created skipped
        = Except.ok (text ++ extra, created2, skipped2)
      ∧ ∀ s ∈ specs, functionExists (text ++ extra) s.function_name = true := by
  intro specs
  induction specs with
  | nil =>
    intro text c k _
    exact ⟨[], c, k, by simp [processSpecs], fun s hs => absurd hs (List.not_mem_nil _)⟩
  | cons s rest ih =>
    intro text c k h
    have hw := h s (List.mem_cons_self _ _)
    have hrest : ∀ t ∈ rest, wfSpec t = true :=
      fun t ht => h t (List.mem_cons_of_mem _ ht)
    have hv := wfSpec_valid_fname hw
    rw [processSpecs_cons_valid hv]
    by_cases hex : functionExists text s.function_name = true
    · rw [hex]
      simp only [Bool.not_false, Bool.and_true, if_true]
      obtain ⟨extra, c2, k2, heq, hall⟩ := ih text c (k ++ [s.function_name]) hrest
      refine ⟨extra, c2, k2, heq, ?_⟩
      intro t ht
      rcases List.mem_cons.1 ht with he | hm
      · subst he; exact functionExists_append_left hex extra
      · exact hall t hm
    · have hex' : functionExists text s.function_name = false := by simpa using hex
      rw [hex']
      simp only [Bool.false_and, if_false, Bool.false_eq_true]
      obtain ⟨nb, hrg, hname, _⟩ := renderGenBlock_ok hw
      have hbl : renderFunctionBlockLines s = Except.ok (GenBlock.lines nb) := by
        rw [renderFnBlockLines_eq, hrg]
        rfl
      rw [hbl]
      obtain ⟨extra, c2, k2, heq, hall⟩ :=
        ih (text ++ GenBlock.lines nb) (c ++ [s.function_name]) k hrest
      refine ⟨GenBlock.lines nb ++ extra, c2, k2, ?_, ?_⟩
      · rw [← List.append_assoc]; exact heq
      · intro t ht
        rw [← List.append_assoc]
        rcases List.mem_cons.1 ht with he | hm
        · subst he
          refine functionExists_append_left ?_ extra
          rw [← hname]
          exact functionExists_append_block text (hname ▸ hv)
        · exact hall t hm

theorem wfCall_parts {agent : String} {tools : List ToolSpec}
    (h : wfCall agent tools = true) :
    ¬(agent = "") ∧ slugOf agent ≠ "" ∧ tools.isEmpty = false
      ∧ ∀ s ∈ tools, wfSpec s = true := by
  unfold wfCall at h
  simp only [Bool.and_eq_true, bne_iff_ne, ne_eq, Bool.not_eq_true',
    List.all_eq_true] at h
  exact ⟨h.1.1.1.1, h.1.1.2, h.1.2, h.2⟩

theorem defineDynamicTools_wf_run {agent base : String} {tools : List ToolSpec}
    {ow : Bool} {fs : FSState} {hdr : List String} {blocks : List GenBlock}
    (hwf : wfCall agent tools = true)
    (htext : fs.tools_file.getD (renderHeaderLines agent)
      = hdr ++ (blocks.map GenBlock.lines).flatten)
    (hhdr : ∀ l ∈ hdr, cleanLine l = true)
    (hOK : ∀ b ∈ blocks, GenBlockOK b)
    (hnd : (blocks.map GenBlock.name).Nodup) :
    ∃ created skipped,
      defineDynamicTools agent tools ow base fs
        = ({ dir_exists := true, init_file := some (fs.init_file.getD ""),
             tools_file := some (hdr
               ++ ((absProcess ow blocks tools).map GenBlock.lines).flatten) },
           Except.ok (DResult.ok ("src." ++ slugOf agent ++ ".tools")
             (base ++ "/src/" ++ slugOf agent ++ "/tools.py") created skipped
             (yamlToolsBlock ("src." ++ slugOf agent ++ ".tools") tools)))
      ∧ (∀ b ∈ absProcess ow blocks tools, GenBlockOK b)
      ∧ ((absProcess ow blocks tools).map GenBlock.name).Nodup := by
  obtain ⟨hne, hslug, hempty, hall⟩ := wfCall_parts hwf
  obtain ⟨c2, k2, hps, hOK2, hnd2⟩ :=
    @processSpecs_sim ow tools hdr blocks [] [] hhdr hOK hnd hall
  refine ⟨c2, k2, ?_, hOK2, hnd2⟩
  rw [← htext] at hps
  simp [defineDynamicTools, hne, hempty, slugStep_ok hslug, hps]

theorem reachable_invtext {fs : FSState} (h : ReachableWF fs) :
    ∀ lines, fs.tools_file = some lines → InvText lines := by
  induction h with
  | init =>
    intro lines hl
    exact absurd hl (by simp [FSState.fresh])
  | step fs agent base tools ow hreach hwf ih =>
    intro lines hl
    obtain ⟨hdr, blocks, htext, hhdr, hOK, hnd⟩ :
        ∃ (hdr : List String) (blocks : List GenBlock),
          fs.tools_file.getD (renderHeaderLines agent)
            = hdr ++ (blocks.map GenBlock.lines).flatten
          ∧ (∀ l ∈ hdr, cleanLine l = true)
          ∧ (∀ b ∈ blocks, GenBlockOK b)
          ∧ (blocks.map GenBlock.name).Nodup := by
      cases htf : fs.tools_file with
      | none =>
        exact ⟨renderHeaderLines agent, [], by simp,
          clean_renderHeaderLines agent, by simp, by simp⟩
      | some ls =>
        obtain ⟨hdr, blocks, he, hh, ho, hn⟩ := ih ls htf
        exact ⟨hdr, blocks, by simpa using he, hh, ho, hn⟩
    obtain ⟨c2, k2, heq, hOK2, hnd2⟩ :=
      defineDynamicTools_wf_run hwf htext hhdr hOK hnd
    rw [heq] at hl
    simp only [Option.some_inj] at hl
    exact ⟨hdr, absProcess ow blocks tools, hl.symm, hhdr, hOK2, hnd2⟩

theorem nodup_filter_name_le_one {nm : String} :
    ∀ (blocks : List GenBlock), (blocks.map GenBlock.name).Nodup →
    (blocks.filter (fun b => b.name == nm)).length ≤ 1 := by
  intro blocks
  induction blocks with
  | nil => intro _; simp
  | cons b bs ih =>
    intro hnd
    rw [List.map_cons, List.nodup_cons] at hnd
    obtain ⟨hnotin, hnd2⟩ := hnd
    rw [List.filter_cons]
    by_cases hb : (b.name == nm) = true
    · rw [if_pos hb]
      have hbn : b.name = nm := by simpa using hb
      have hnil : bs.filter (fun x => x.name == nm) = [] := by
        rw [List.filter_eq_nil_iff]
        intro x hx hxe
        have hxn : x.name = nm := by simpa using hxe
        exact hnotin (List.mem_map.2 ⟨x, hx, hxn.trans hbn.symm⟩)
      rw [hnil]
      simp
    · rw [if_neg hb]
      exact ih hnd2

theorem invtext_countDefs_le_one {lines : List String} {nm : String}
    (h : InvText lines) (hnm : isValidIdent nm = true) :
    countDefs lines nm ≤ 1 := by
  obtain ⟨hdr, blocks, heq, hhdr, hOK, hnd⟩ := h
  rw [heq, countDefs_invtext hnm hhdr hOK]
  exact nodup_filter_name_le_one blocks hnd

/-! ## Claim theorems -/

/-- C1: idempotence of the generator.  For every agent name, base path,
starting file-system state and list of well-formed tool specs, calling
`define_dynamic_tools` a second time with identical arguments and
`overwrite=false` returns an empty `created` list with every function name
in `skipped`, and leaves the file-system state — in particular the target
file's text — exactly as the first call left it. -/
theorem c1_idempotence (agent base : String) (tools : List ToolSpec)
    (fs0 : FSState) (hwf : wfCall agent tools = true) :
    defineDynamicTools agent tools false base
        (defineDynamicTools agent tools false base fs0).1
      = ((defineDynamicTools agent tools false base fs0).1,
         Except.ok (DResult.ok ("src." ++ slugOf agent ++ ".tools")
           (base ++ "/src/" ++ slugOf agent ++ "/tools.py")
           [] (tools.map ToolSpec.function_name)
           (yamlToolsBlock ("src." ++ slugOf agent ++ ".tools") tools))) := by
  obtain ⟨hne, hslug, hempty, hall⟩ := wfCall_parts hwf
  obtain ⟨extra, c2, k2, hps1, hex1⟩ := processSpecs_false_grow tools
    (fs0.tools_file.getD (renderHeaderLines agent)) [] [] hall
  have h1 : defineDynamicTools agent tools false base fs0
      = ({ dir_exists := true, init_file := some (fs0.init_file.getD ""),
           tools_file := some (fs0.tools_file.getD (renderHeaderLines agent)
             ++ extra) },
         Except.ok (DResult.ok ("src." ++ slugOf agent ++ ".tools")
           (base ++ "/src/" ++ slugOf agent ++ "/tools.py") c2 k2
           (yamlToolsBlock ("src." ++ slugOf agent ++ ".tools") tools))) := by
    simp [defineDynamicTools, hne, hempty, slugStep_ok hslug, hps1]
  have hskip : processSpecs false tools
      (fs0.tools_file.getD (renderHeaderLines agent) ++ extra) [] []
      = Except.ok (fs0.tools_file.getD (renderHeaderLines agent) ++ extra, [],
          tools.map ToolSpec.function_name) := by
    have h2 := processSpecs_allskip tools
      (fs0.tools_file.getD (renderHeaderLines agent) ++ extra) [] []
      (fun s hs => ⟨wfSpec_valid_fname (hall s hs), hex1 s hs⟩)
    simpa using h2
  rw [h1]
  simp [defineDynamicTools, hne, hempty, slugStep_ok hslug, hskip]

/-- Witness for C1: the §8 end-to-end scenario — agent `"Data Bot"`, one
`ping` spec returning `dict`, fresh target — run twice. -/
theorem c1_idempotence_witness :
    wfCall "Data Bot" [pingSpec] = true
    ∧ defineDynamicTools "Data Bot" [pingSpec] false "/app"
        (defineDynamicTools "Data Bot" [pingSpec] false "/app" FSState.fresh).1
      = ((defineDynamicTools "Data Bot" [pingSpec] false "/app" FSState.fresh).1,
         Except.ok (DResult.ok ("src." ++ slugOf "Data Bot" ++ ".tools")
           ("/app" ++ "/src/" ++ slugOf "Data Bot" ++ "/tools.py")
           [] ([pingSpec].map ToolSpec.function_name)
           (yamlToolsBlock ("src." ++ slugOf "Data Bot" ++ ".tools") [pingSpec]))) :=
  ⟨by decide, c1_idempotence "Data Bot" "/app" [pingSpec] FSState.fresh (by decide)⟩

theorem reachable_decomp {fs : FSState} (h : ReachableWF fs) (agent : String) :
    ∃ (hdr : List String) (blocks : List GenBlock),
      fs.tools_file.getD (renderHeaderLines agent)
        = hdr ++ (blocks.map GenBlock.lines).flatten
      ∧ (∀ l ∈ hdr, cleanLine l = true)
      ∧ (∀ b ∈ blocks, GenBlockOK b)
      ∧ (blocks.map GenBlock.name).Nodup := by
  cases htf : fs.tools_file with
  | none =>
    exact ⟨renderHeaderLines agent, [], by simp,
      clean_renderHeaderLines agent, by simp, by simp⟩
  | some ls =>
    obtain ⟨hdr, blocks, he, hh, ho, hn⟩ := reachable_invtext h ls htf
    exact ⟨hdr, blocks, by simpa using he, hh, ho, hn⟩

/-- C2 counterexample: from a fresh target, one call creating `f` whose
parameter type is the string `List)`, then a second call with
`overwrite=true` and the same spec.  Both calls return `status:"success"`
with `created=["f"]`, yet the file afterwards holds **two** top-level
`async def f(...)` definition lines: the removal pattern
`\([^\)]*\)\s*->` cannot match a signature whose parameter list itself
contains `)`, so the old block survives and the new one is appended. -/
theorem c2_counterexample :
    c2SecondCall.2 = Except.ok (DResult.ok "src.bot.tools" "/b/src/bot/tools.py"
      ["f"] [] (yamlToolsBlock "src.bot.tools" [rparenSpec]))
    ∧ countDefs c2SecondLines "f" = 2 := by
  constructor
  · rfl
  · decide

/-- C2 (amended): over file states reachable through *well-formed*
generator calls — in particular, every parameter type and default
free of `)` and newlines — the target file never holds more than one
top-level `async def` line per name; and re-invoking on such a state with
`overwrite=true` and one well-formed spec leaves exactly one definition
line for that name, whose header line carries the new signature and the
new declared return type. -/
theorem c2_one_block_per_name :
    (∀ (fs : FSState) (lines : List String) (nm : String), ReachableWF fs →
       fs.tools_file = some lines → isValidIdent nm = true →
       countDefs lines nm ≤ 1)
    ∧ (∀ (fs : FSState) (agent base : String) (s : ToolSpec)
         (lines2 : List String), ReachableWF fs →
       wfCall agent [s] = true →
       (defineDynamicTools agent [s] true base fs).1.tools_file = some lines2 →
       countDefs lines2 s.function_name = 1
       ∧ ∃ sig, renderParamSig s.params = Except.ok sig
           ∧ blockHeaderLine s.function_name sig (rtypeOf s) ∈ lines2) := by
  constructor
  · intro fs lines nm hreach htf hnm
    exact invtext_countDefs_le_one (reachable_invtext hreach lines htf) hnm
  · intro fs agent base s lines2 hreach hwf htf2
    obtain ⟨hdr, blocks, htext, hhdr, hOK, hnd⟩ := reachable_decomp hreach agent
    obtain ⟨c2, k2, heq, hOK2, hnd2⟩ :=
      @defineDynamicTools_wf_run agent base [s] true fs hdr blocks hwf htext hhdr hOK hnd
    rw [heq] at htf2
    simp only [Option.some_inj] at htf2
    subst htf2
    have hws : wfSpec s = true :=
      (wfCall_parts hwf).2.2.2 s (List.mem_cons_self _ _)
    have hv := wfSpec_valid_fname hws
    obtain ⟨nb, hrg, hname, hnbOK⟩ := renderGenBlock_ok hws
    have habs : absProcess true blocks [s] = absStep true blocks s := rfl
    have hfields := renderGenBlock_fields hrg
    have hself : ((absProcess true blocks [s]).filter
        (fun b => b.name == s.function_name)) = [nb] := by
      rw [habs]
      by_cases hex : blocks.any (fun b => b.name == s.function_name) = true
      · have hstep : absStep true blocks s
            = blocks.filter (fun b => b.name != s.function_name) ++ [nb] := by
          simp [absStep, hv, hrg, hex]
        rw [hstep, List.filter_append]
        have h1 : (blocks.filter (fun b => b.name != s.function_name)).filter
            (fun b => b.name == s.function_name) = [] := by
          rw [List.filter_eq_nil_iff]
          intro b hb hbe
          have h3 := List.of_mem_filter hb
          have h4 : b.name = s.function_name := by simpa using hbe
          rw [h4] at h3
          simp at h3
        rw [h1]
        simp [hname]
      · have hex' : blocks.any (fun b => b.name == s.function_name) = false := by
          simpa using hex
        have hstep : absStep true blocks s = blocks ++ [nb] := by
          simp [absStep, hv, hrg, hex']
        rw [hstep, List.filter_append]
        have h1 : blocks.filter (fun b => b.name == s.function_name) = [] := by
          rw [List.filter_eq_nil_iff]
          rw [List.any_eq_false] at hex'
          exact fun b hb => by simpa using hex' b hb
        rw [h1]
        simp [hname]
    have hmem : nb ∈ absProcess true blocks [s] := by
      have := hself ▸ List.mem_singleton.2 (rfl : nb = nb)
      exact List.mem_of_mem_filter this
    constructor
    · rw [countDefs_invtext hv hhdr hOK2, hself]
      rfl
    · refine ⟨nb.sig, hfields.2.1, ?_⟩
      refine List.mem_append.2 (Or.inr ?_)
      refine List.mem_flatten.2 ⟨GenBlock.lines nb, List.mem_map_of_mem _ hmem, ?_⟩
      rw [show blockHeaderLine s.function_name nb.sig (rtypeOf s)
          = blockHeaderLine nb.name nb.sig nb.rt from by rw [hname, hfields.2.2]]
      exact List.mem_cons_self _ _

/-- Witness for C2: the overwrite scenario of §8 — `ping` written with
return type `dict`, then overwritten with return type `str` — applied to
the amended invariant: exactly one `ping` definition line remains and the
new header line (return type `str`) is in the file. -/
theorem c2_one_block_witness :
    countDefs c2WitnessLines "ping" = 1
    ∧ ∃ sig, renderParamSig pingSpecStr.params = Except.ok sig
        ∧ blockHeaderLine pingSpecStr.function_name sig (rtypeOf pingSpecStr)
            ∈ c2WitnessLines :=
  c2_one_block_per_name.2 c2WitnessFS1 "Data Bot" "/app" pingSpecStr
    c2WitnessLines
    (ReachableWF.step FSState.fresh "Data Bot" "/app" [pingSpec] false
      ReachableWF.init (by decide))
    (by decide) (by rfl)

/-- C3: error atomicity of validation.  A call with an empty `agent_name`
or an empty `tools` list returns the corresponding `status:"error"` record
and leaves the file-system state untouched (no directory creation, no
package-marker write, no file write). -/
theorem c3_error_atomicity (agent base : String) (tools : List ToolSpec)
    (ow : Bool) (fs : FSState) (h : agent = "" ∨ tools = []) :
    defineDynamicTools agent tools ow base fs
      = (fs, Except.ok (DResult.err
          (if agent = "" then "agent_name is required"
           else "tools must be a non-empty list"))) := by
  rcases h with h | h
  · subst h
    simp [defineDynamicTools]
  · subst h
    by_cases ha : agent = ""
    · subst ha
      simp [defineDynamicTools]
    · simp [defineDynamicTools, ha]

/-- Witness for C3: a non-empty agent with an empty tools list, on a
state where the target directory and file already exist; nothing changes
and the `tools` validation error is returned. -/
theorem c3_error_atomicity_witness :
    defineDynamicTools "Data Bot" [] false "/app"
        ⟨true, some "", some ["x"]⟩
      = (⟨true, some "", some ["x"]⟩, Except.ok (DResult.err
          (if ("Data Bot" : String) = "" then "agent_name is required"
           else "tools must be a non-empty list"))) :=
  c3_error_atomicity "Data Bot" "/app" [] false ⟨true, some "", some ["x"]⟩
    (Or.inr rfl)

/-- C4 counterexample: `params = [a (required), b = 1 (optional),
c (required)]`.  `_render_param_sig` renders the input order
`a, b = 1, c`, not the claimed required-first order `a, c, b = 1`. -/
theorem c4_counterexample :
    renderParamSig c4Params = Except.ok
      ("a: Any, b: Any = 1, c: Any, tool_context=None, "
        ++ "tool_config: Optional[Dict[str, Any]] = None")
    ∧ renderParamSig c4Params ≠ Except.ok (specOrderedSig
        [⟨"a", Option.none, Option.none, Option.none⟩,
         ⟨"c", Option.none, Option.none, Option.none⟩]
        [⟨"b", Option.none, Option.none, some (PyVal.int 1)⟩]) := by
  constructor
  · rfl
  · intro h
    exact absurd (Except.ok.inj h) (by decide)

/-- C4 (amended): `_render_param_sig` renders the parameters in **input
order** (typed, with literal `repr` defaults), then the two fixed trailing
parameters; the claimed required-before-optional ordering is what it
produces exactly when the input list is already grouped with the
default-free parameters first. -/
theorem c4_param_order {params : List ParamSpec}
    (hv : ∀ p ∈ params, isValidIdent p.name = true) :
    renderParamSig params
      = Except.ok (pyJoin ", " (params.map renderOneParam ++ fixedTrailingParams))
    ∧ ∀ reqs opts, params = reqs ++ opts →
        (∀ p ∈ reqs, p.default = Option.none) →
        (∀ p ∈ opts, p.default ≠ Option.none) →
        renderParamSig params = Except.ok (specOrderedSig reqs opts) := by
  have h1 : renderParamSig params
      = Except.ok (pyJoin ", " (params.map renderOneParam
          ++ fixedTrailingParams)) := by
    unfold renderParamSig
    rw [renderParamList_ok hv]
  refine ⟨h1, ?_⟩
  intro reqs opts hsplit _ _
  rw [h1, hsplit]
  unfold specOrderedSig
  rw [List.map_append, List.append_assoc]

/-- Witness for C4: one required then one optional parameter — the grouped
case, where the rendered signature coincides with the spec's ordering. -/
theorem c4_param_order_witness :
    (∀ p ∈ ([⟨"a", Option.none, Option.none, Option.none⟩,
             ⟨"b", Option.none, Option.none, some (PyVal.int 1)⟩] :
             List ParamSpec), isValidIdent p.name = true)
    ∧ renderParamSig
        [⟨"a", Option.none, Option.none, Option.none⟩,
         ⟨"b", Option.none, Option.none, some (PyVal.int 1)⟩]
      = Except.ok (specOrderedSig
          [⟨"a", Option.none, Option.none, Option.none⟩]
          [⟨"b", Option.none, Option.none, some (PyVal.int 1)⟩]) :=
  ⟨by decide,
   (c4_param_order (by decide)).2
     [⟨"a", Option.none, Option.none, Option.none⟩]
     [⟨"b", Option.none, Option.none, some (PyVal.int 1)⟩]
     rfl (by decide) (by decide)⟩

/-- C5 counterexample: the slug computation is not total and its result is
not always a valid identifier.  `"!!!"` slugifies to the empty string, so
`slug[0]` raises `IndexError`; `"123 agent"` slugifies to `"123_agent"`,
which starts with a digit and is not a valid Python identifier (the code
validates `"_" + slug` but then uses `slug` itself). -/
theorem c5_counterexample :
    slugOf "!!!" = ""
    ∧ slugStep "!!!" = Except.error "IndexError: string index out of range"
    ∧ slugOf "123 agent" = "123_agent"
    ∧ isValidIdent (slugOf "123 agent") = false
    ∧ slugStep "123 agent" = Except.ok "123_agent" := by
  refine ⟨rfl, rfl, rfl, rfl, rfl⟩

/-- C5 (amended): for every non-empty agent name the derived slug equals
the spec's pipeline (lower-case, collapse runs outside `[a-z0-9_]` to one
hyphen, trim edge hyphens, hyphens to underscores); when the slug is empty
the call raises `IndexError` instead of returning, and when it is
non-empty the computation completes with the slug, which is a valid
identifier exactly when its first character is not a digit. -/
theorem c5_slug_normalization (a : String) (h : a ≠ "") :
    slugOf a = specSlugOf a
    ∧ (slugOf a = "" →
        slugStep a = Except.error "IndexError: string index out of range")
    ∧ (slugOf a ≠ "" →
        slugStep a = Except.ok (slugOf a)
        ∧ isValidIdent (slugOf a) = !(firstIsDigit (slugOf a))) :=
  ⟨slugOf_eq_specSlugOf a,
   fun he => slugStep_raises he,
   fun hne => ⟨slugStep_ok hne, slug_valid_iff hne⟩⟩

/-- Witness for C5: the spec's own example `"My Cool Agent!!"`. -/
theorem c5_slug_normalization_witness :
    ("My Cool Agent!!" : String) ≠ ""
    ∧ slugOf "My Cool Agent!!" = specSlugOf "My Cool Agent!!"
    ∧ slugOf "My Cool Agent!!" ≠ ""
    ∧ slugStep "My Cool Agent!!" = Except.ok (slugOf "My Cool Agent!!")
    ∧ isValidIdent (slugOf "My Cool Agent!!")
        = !(firstIsDigit (slugOf "My Cool Agent!!")) := by
  have h := c5_slug_normalization "My Cool Agent!!" (by decide)
  exact ⟨by decide, h.1, by decide, (h.2.2 (by decide)).1, (h.2.2 (by decide)).2⟩

/-- C6 counterexample: the declared return type `"mapping"` is not
`"dict"`, yet the default body renders the structured record containing a
`"status"` key — the source tests membership in `{"dict", "mapping"}`
case-insensitively, not equality with `"dict"`. -/
theorem c6_counterexample :
    ("mapping" : String) ≠ "dict"
    ∧ bodyHasStatusKey (defaultBodyLines (some "mapping")) = true
    ∧ bodyHasStatusKey (defaultBodyLines (some "Dict")) = true := by
  refine ⟨by decide, by decide, by decide⟩

/-- C6 (amended): with no `body`, the default body produces the record
with a `"status"` key exactly when the declared return type lower-cases to
`"dict"` or `"mapping"`; in every other case (including an absent type) it
is the single placeholder-text return line. -/
theorem c6_default_body (rt : Option String) :
    (bodyHasStatusKey (defaultBodyLines rt) = true
      ↔ pyLowerStr (rt.getD "") = "dict" ∨ pyLowerStr (rt.getD "") = "mapping")
    ∧ (pyLowerStr (rt.getD "") ≠ "dict" → pyLowerStr (rt.getD "") ≠ "mapping" →
        defaultBodyLines rt = ["    return \"OK (replace with real logic)\""]) := by
  cases rt with
  | none =>
    refine ⟨by decide, fun _ _ => rfl⟩
  | some t =>
    simp only [Option.getD_some]
    by_cases h1 : pyLowerStr t = "dict"
    · have hb : defaultBodyLines (some t)
          = ["    result = \x7b\"status\": \"ok\", \"note\": \"Replace with real logic\"\x7d",
             "    return result"] := by
        simp [defaultBodyLines, h1]
      refine ⟨?_, fun hd _ => absurd h1 hd⟩
      rw [hb]
      exact ⟨fun _ => Or.inl h1, fun _ => by decide⟩
    · by_cases h2 : pyLowerStr t = "mapping"
      · have hb : defaultBodyLines (some t)
            = ["    result = \x7b\"status\": \"ok\", \"note\": \"Replace with real logic\"\x7d",
               "    return result"] := by
          simp [defaultBodyLines, h1, h2]
        refine ⟨?_, fun _ hm => absurd h2 hm⟩
        rw [hb]
        exact ⟨fun _ => Or.inr h2, fun _ => by decide⟩
      · have hb : defaultBodyLines (some t)
            = ["    return \"OK (replace with real logic)\""] := by
          simp [defaultBodyLines, h1, h2]
        refine ⟨?_, fun _ _ => hb⟩
        rw [hb]
        constructor
        · intro hfalse
          exact absurd hfalse (by decide)
        · intro hor
          rcases hor with h | h
          · exact absurd h h1
          · exact absurd h h2

/-- Witness for C6: declared return type `"int"` — no `"status"` key, the
placeholder-text body. -/
theorem c6_default_body_witness :
    pyLowerStr ((some "int" : Option String).getD "") ≠ "dict"
    ∧ pyLowerStr ((some "int" : Option String).getD "") ≠ "mapping"
    ∧ defaultBodyLines (some "int")
        = ["    return \"OK (replace with real logic)\""] :=
  ⟨by decide, by decide,
   (c6_default_body (some "int")).2 (by decide) (by decide)⟩

/-- C7: the "never raises / zero divisors guarded" safety claim fails in
the code.  `create_user_stories([])` reaches
`sum(...) / len(user_stories)` with `len(user_stories) = 0` and raises
`ZeroDivisionError` instead of returning a `status` record, while the
sibling guard in `track_project_progress` (`max(total_tasks, 1)`) does
return `status:"success"` with completion `0.0` for `total_tasks = 0`. -/
theorem c7_zero_division_bug :
    createUserStories [] Option.none "standard" "agile" ()
        (Option.none : Option Unit)
      = Except.error "ZeroDivisionError: division by zero"
    ∧ (trackProjectProgress "Proj" "Development" 0 0 (4/5) Option.none ()
        (Option.none : Option Unit)).current_status.completion_percentage = 0
    ∧ (trackProjectProgress "Proj" "Development" 0 0 (4/5) Option.none ()
        (Option.none : Option Unit)).status = "success" := by
  refine ⟨rfl, ?_, rfl⟩
  show ((0 : ℚ) / ((max (0 : Int) 1 : Int) : ℚ)) * 100 = 0
  norm_num

/-- C8 counterexample: an unrecognized budget level does *not* fall back
to a documented default branch — the budget `.get` has no default, so the
returned `budget_considerations` value is absent (Python `None`). -/
theorem c8_counterexample :
    (recommendTechnologyStack "web_application" Option.none "unlimited" ()
        (Option.none : Option Unit)).budget_considerations = Option.none := by
  rfl

/-- C8 (amended): unrecognized enum-like inputs fall back to the
documented default branch for system scale (`"medium"`), project type
(`"web_application"`), experience level (`"mid-level"`) and role type
(`"engineering"`); the budget level is the exception — its lookup has no
default, so an unrecognized budget yields an absent value rather than a
default branch. -/
theorem c8_enum_fallback (req st sc pt el role atype : String)
    (skills req_sk nice : Option (List String)) (n : Int) (bg : String)
    (hsc : scale_recommendations sc = Option.none)
    (hpt : tech_stacks pt = Option.none)
    (hel : experience_requirements el = Option.none)
    (hrole : assessment_templates role = Option.none)
    (hbg : budgetConsiderationsTable bg = Option.none) :
    (createArchitectureDiagram req st sc ()
        (Option.none : Option Unit)).infrastructure_recommendations
      = mediumScaleRec
    ∧ (recommendTechnologyStack pt skills bg ()
        (Option.none : Option Unit)).recommended_stack = webApplicationStack
    ∧ (createJobDescription "R" "D" el req_sk nice ()
        (Option.none : Option Unit)).job_description.requirements.experience
      = midLevelExpRec.years
    ∧ (designScreeningProcess role skills n atype ()
        (Option.none : Option Unit)).assessment_framework = engineeringTemplate
    ∧ (recommendTechnologyStack pt skills bg ()
        (Option.none : Option Unit)).budget_considerations = Option.none := by
  refine ⟨?_, ?_, ?_, ?_, ?_⟩
  · show (scale_recommendations sc).getD mediumScaleRec = mediumScaleRec
    rw [hsc]
    rfl
  · show (tech_stacks pt).getD webApplicationStack = webApplicationStack
    rw [hpt]
    rfl
  · show ((experience_requirements el).getD midLevelExpRec).years
        = midLevelExpRec.years
    rw [hel]
    rfl
  · show (assessment_templates role).getD engineeringTemplate
        = engineeringTemplate
    rw [hrole]
    rfl
  · show budgetConsiderationsTable bg = Option.none
    exact hbg

/-- Witness for C8: all five enum-like inputs unrecognized. -/
theorem c8_enum_fallback_witness :
    (createArchitectureDiagram "r" "web_application" "huge" ()
        (Option.none : Option Unit)).infrastructure_recommendations
      = mediumScaleRec
    ∧ (recommendTechnologyStack "blockchain" Option.none "unlimited" ()
        (Option.none : Option Unit)).recommended_stack = webApplicationStack
    ∧ (createJobDescription "R" "D" "junior" Option.none Option.none ()
        (Option.none : Option Unit)).job_description.requirements.experience
      = midLevelExpRec.years
    ∧ (designScreeningProcess "sales" Option.none 3 "technical" ()
        (Option.none : Option Unit)).assessment_framework = engineeringTemplate
    ∧ (recommendTechnologyStack "blockchain" Option.none "unlimited" ()
        (Option.none : Option Unit)).budget_considerations = Option.none :=
  c8_enum_fallback "r" "web_application" "huge" "blockchain" "junior" "sales"
    "technical" Option.none Option.none Option.none 3 "unlimited"
    rfl rfl rfl rfl rfl

/-- C9: for every call to `design_screening_process` with
`interview_stages = n`, the `estimated_timeline` field is the decimal
rendering of the integer `5*n - 7` followed by `" days"` — the f-string
`{interview_stages * 5-7}` is arithmetic, `(n*5) - 7`, not a "5-7 day"
range; in particular `"8 days"` for the default `n = 3`. -/
theorem c9_timeline_formula (role_type atype : String)
    (skills : Option (List String)) (n : Int) :
    (designScreeningProcess role_type skills n atype ()
        (Option.none : Option Unit)).interview_process.estimated_timeline
      = toString (5 * n - 7) ++ " days"
    ∧ (designScreeningProcess "engineering" Option.none 3 "technical" ()
        (Option.none : Option Unit)).interview_process.estimated_timeline
      = "8 days" := by
  constructor
  · show toString (n * 5 - 7) ++ " days" = toString (5 * n - 7) ++ " days"
    rw [Int.mul_comm]
  · rfl

/-- C10: `create_architecture_diagram` is deterministic and reads nothing
from its context or config parameters: two calls with equal
`requirements`, `system_type` and `scale` give equal results, whatever the
two context/config arguments (even of different types). -/
theorem c10_determinism {γ₁ δ₁ γ₂ δ₂ : Type}
    (requirements system_type scale : String)
    (ctx₁ : γ₁) (cfg₁ : Option δ₁) (ctx₂ : γ₂) (cfg₂ : Option δ₂) :
    createArchitectureDiagram requirements system_type scale ctx₁ cfg₁
      = createArchitectureDiagram requirements system_type scale ctx₂ cfg₂ := by
  rfl
